import Mathlib

/-!
Verification of the drive_syncer File Provider
(src/fs/drive_file_provider/provider/mod.rs and its supporting modules).

The provider is a single-tasked coordinator owning the entry table
(`entries : HashMap<DriveId, FileData>`), the parent/child graph
(`parents`, `children : HashMap<DriveId, Vec<DriveId>>`), the file-handle
table, and the queue of in-flight remote operations (`running_requests`).
This file gives a shallow embedding of the provider state and of every
request handler relevant to the claims, as executable Lean functions, and
proves or refutes the claimed properties.

Modelling conventions:
- `DriveId` is a `String`; `SystemTime` is a `Nat` (`now` is passed as an
  explicit argument where the source calls `SystemTime::now()`).
- Rust `HashMap`s are association lists; insertion conses a binding
  (lookups see the latest binding), removal drops all bindings of the key.
- The local disk is a map from cache path to byte list; bytes are `Nat`.
- Remote calls (download, upload, metadata update) are spawned or
  fire-and-forget in the source; their effects on the remote are not
  modelled.  Background task completion effects on the local disk are not
  modelled either; no claim depends on them.
- The ghost field `downloads` records one element per `tokio::spawn` of a
  download task in `start_download_call`; it exists only to state the
  at-most-one-download property and is written nowhere else.
-/

namespace DriveSyncer

/-- Remote object identifier (src/google_drive/drive_id.rs `DriveId`). -/
abbrev DriveId := String

/-- `DriveId::root()`, the sentinel alias for the root folder. -/
def rootSentinelId : DriveId := "root"

/-- Association-list lookup, models `HashMap::get`. -/
def aget {α β : Type} [DecidableEq α] (m : List (α × β)) (k : α) :
    Option β :=
  match m with
  | [] => none
  | (k2, v) :: rest => if k = k2 then some v else aget rest k

/-- Association-list store, models `HashMap::insert` and in-place
`get_mut` updates: the new binding shadows older ones for `aget`. -/
def aset {α β : Type} (m : List (α × β)) (k : α) (v : β) :
    List (α × β) :=
  (k, v) :: m

/-- Association-list removal, models `HashMap::remove`. -/
def aremove {α β : Type} [DecidableEq α] (m : List (α × β)) (k : α) :
    List (α × β) :=
  m.filter (fun p => p.1 ≠ k)

/-- Number of occurrences of `v` in `l` (used for graph multiplicities). -/
def countOcc (l : List String) (v : String) : Nat :=
  match l with
  | [] => 0
  | x :: xs => (if x = v then 1 else 0) + countOcc xs v

/-- `Vec::remove_first_element` from src/common.rs: find the position of
the first element equal to `target` and remove it; no-op when absent. -/
def remove_first_element (l : List DriveId) (target : DriveId) :
    List DriveId :=
  match l with
  | [] => []
  | x :: xs => if x = target then xs else x :: remove_first_element xs target

/-- `fuser::FileType`, restricted to the variants the provider produces. -/
inductive FileType where
  | RegularFile
  | Directory
  deriving DecidableEq

/-- `fuser::FileAttr` (the fields the provider reads or writes). -/
structure FileAttr where
  ino : Nat := 0
  size : Nat := 0
  atime : Nat := 0
  mtime : Nat := 0
  ctime : Nat := 0
  crtime : Nat := 0
  kind : FileType := FileType.RegularFile
  perm : Nat := 0
  flags : Nat := 0
  deriving DecidableEq

/-- `google_drive3::api::File` alias `DriveFileMetadata` (the fields the
provider touches).  `Default::default()` is the all-`none` record. -/
structure DriveFileMetadata where
  id : Option DriveId := none
  name : Option String := none
  mimeType : Option String := none
  parents : Option (List DriveId) := none
  size : Option Int := none
  description : Option String := none
  thumbnailLink : Option String := none
  viewedByMeTime : Option Nat := none
  modifiedTime : Option Nat := none
  createdTime : Option Nat := none
  deriving DecidableEq

/-- `HandleFlags` from src/fs/drive2/filesystem/handle_flags.rs. -/
structure HandleFlags where
  o_append : Bool := false
  o_dsync : Bool := false
  o_nonblock : Bool := false
  o_rsync : Bool := false
  o_sync : Bool := false
  o_rdonly : Bool := false
  o_rdwr : Bool := false
  o_wronly : Bool := false
  deriving DecidableEq

/-- `HandleFlags::can_write`. -/
def HandleFlags.can_write (f : HandleFlags) : Bool :=
  f.o_wronly || f.o_rdwr

/-- `HandleFlags.can_read`. -/
def HandleFlags.can_read (f : HandleFlags) : Bool :=
  f.o_rdonly || f.o_rdwr

/-- `FileData`, the authoritative per-object record of the provider. -/
structure FileData where
  metadata : DriveFileMetadata
  changed_metadata : DriveFileMetadata
  perma : Bool
  attr : FileAttr
  is_local : Bool
  deriving DecidableEq

/-- `FileData::get_id`. -/
def FileData.get_id (d : FileData) : Option DriveId :=
  d.metadata.id

/-- `FileHandleData`.  A Rust `Option<File>` is modelled as the path the
handle was opened on (the handle always opens its own `path`). -/
structure FileHandleData where
  flags : HandleFlags
  file : Option String
  path : String
  creating : Bool
  marked_for_open : Bool
  has_content_changed : Bool
  deriving DecidableEq

/-- The state owned by `DriveFileProvider`.  `files` models the local
disk (cache path to content); `downloads` is the ghost download log. -/
structure ProviderState where
  alt_root_id : DriveId
  entries : List (DriveId × FileData)
  parents : List (DriveId × List DriveId)
  children : List (DriveId × List DriveId)
  file_handles : List (Nat × FileHandleData)
  next_fh : Nat
  running_requests : List DriveId
  files : List (String × List Nat)
  downloads : List DriveId
  deriving DecidableEq

/-- `DriveFileProvider::new` (field initialisation). -/
def ProviderState.new : ProviderState :=
  { alt_root_id := rootSentinelId
    entries := []
    parents := []
    children := []
    file_handles := []
    next_fh := 111
    running_requests := []
    files := []
    downloads := [] }

/-- The child list stored for `p` (empty when `p` has no binding). -/
def children_of (st : ProviderState) (p : DriveId) : List DriveId :=
  (aget st.children p).getD []

/-- The parent list stored for `c` (empty when `c` has no binding). -/
def parents_of (st : ProviderState) (c : DriveId) : List DriveId :=
  (aget st.parents c).getD []

/-- The `is_local` flag of the entry for `id` (`unwrap_or(false)`). -/
def is_local_of (st : ProviderState) (id : DriveId) : Bool :=
  ((aget st.entries id).map (fun e => e.is_local)).getD false

/-- Errno values used by the provider (`libc` on Linux). -/
def ENOENT : Int := 2

/-- `libc::EIO`. -/
def EIO : Int := 5

/-- `libc::EINVAL`. -/
def EINVAL : Int := 22

/-- `libc::EADDRINUSE`. -/
def EADDRINUSE : Int := 98

/-- `libc::EREMOTEIO`. -/
def EREMOTEIO : Int := 121

/-- An error response: the message and errno sent as
`ProviderResponse::Error(e, code)` by `send_error_response!`. -/
abbrev ErrnoMsg := String × Int

/-- `DriveFileProvider::get_correct_id`: rewrite the `"root"` sentinel to
`alt_root_id`, leave every other id unchanged. -/
def get_correct_id (st : ProviderState) (id : DriveId) : DriveId :=
  if id = rootSentinelId then st.alt_root_id else id

/-- `DriveFileProvider::add_parent_child_relation`: push `parent_id` onto
`parents[child_id]` and `child_id` onto `children[parent_id]`, creating
singleton vectors when the key is absent. -/
def add_parent_child_relation (st : ProviderState)
    (parent_id child_id : DriveId) : ProviderState :=
  let ps :=
    match aget st.parents child_id with
    | some l => aset st.parents child_id (l ++ [parent_id])
    | none => aset st.parents child_id [parent_id]
  let cs :=
    match aget st.children parent_id with
    | some l => aset st.children parent_id (l ++ [child_id])
    | none => aset st.children parent_id [child_id]
  { st with parents := ps, children := cs }

/-- `DriveFileProvider::remove_parent_child_relation`: remove the first
occurrence of `parent_id` from `parents[child_id]` and of `child_id` from
`children[parent_id]`, touching only keys that are present. -/
def remove_parent_child_relation (st : ProviderState)
    (parent_id child_id : DriveId) : ProviderState :=
  let ps :=
    match aget st.parents child_id with
    | some l => aset st.parents child_id (remove_first_element l parent_id)
    | none => st.parents
  let cs :=
    match aget st.children parent_id with
    | some l => aset st.children parent_id (remove_first_element l child_id)
    | none => st.children
  { st with parents := ps, children := cs }

/-- The placeholder name `find_first_child_by_name` compares against when
an entry has no name (the Rust literal is dollar, quote, backslash,
`NO_NAME`). -/
def noNameSentinel : String := "$'\\NO_NAME"

/-- `char::to_ascii_lowercase`. -/
def to_ascii_lowercase (c : Char) : Char :=
  if 65 ≤ c.toNat ∧ c.toNat ≤ 90 then Char.ofNat (c.toNat + 32) else c

/-- `str::eq_ignore_ascii_case` (equality after ASCII lowercasing). -/
def eq_ignore_ascii_case (a b : String) : Bool :=
  a.data.map to_ascii_lowercase == b.data.map to_ascii_lowercase

/-- The loop body of `find_first_child_by_name` over the child id list:
the first child found in `entries` whose name (or the no-name
placeholder) matches `name` ASCII case-insensitively. -/
def find_child_in (st : ProviderState) (name : String) :
    List DriveId → Option FileData
  | [] => none
  | cid :: rest =>
    match aget st.entries cid with
    | some child =>
      if eq_ignore_ascii_case (child.metadata.name.getD noNameSentinel) name
      then some child
      else find_child_in st name rest
    | none => find_child_in st name rest

/-- `DriveFileProvider::find_first_child_by_name`. -/
def find_first_child_by_name (st : ProviderState) (name : String)
    (parent_id : DriveId) : Option FileData :=
  find_child_in st name ((aget st.children parent_id).getD [])

/-- `DriveFileProvider::check_id_exists`. -/
def check_id_exists (st : ProviderState) (id : DriveId) : Bool :=
  (aget st.entries id).isSome

/-- `DriveFileProvider::does_target_name_exist_under_parent`. -/
def does_target_name_exist_under_parent (st : ProviderState)
    (new_parent : DriveId) (new_name : String) : Bool :=
  (find_first_child_by_name st new_name new_parent).isSome

/-- The `{id, name, attr}` triple returned to the adapter. -/
structure FileMetadata where
  id : DriveId
  name : String
  attr : FileAttr
  deriving DecidableEq

/-- `DriveFileProvider::create_file_metadata_from_entry`: name prefers
the staged `changed_metadata.name`; the id unwrap is modelled with a
default (entries always carry an id). -/
def create_file_metadata_from_entry (entry : FileData) : FileMetadata :=
  { attr := entry.attr
    name := (entry.changed_metadata.name).getD
      ((entry.metadata.name).getD "NO_NAME")
    id := (entry.metadata.id).getD "" }

/-- `DriveFileProvider::lookup` (the `OsString` conversion is modelled as
already successful; an invalid name would yield EINVAL). -/
def lookup (st : ProviderState) (parent : DriveId) (name : String) :
    Except ErrnoMsg (Option FileMetadata) :=
  let parent_id := get_correct_id st parent
  match find_first_child_by_name st name parent_id with
  | some result => Except.ok (some (create_file_metadata_from_entry result))
  | none => Except.ok none

/-- `DriveFileProvider::read_dir`: when `children` has a binding for the
resolved id, map each child id that exists in `entries` to its metadata
and skip `offset` of them; otherwise reply with a successful empty
listing. -/
def read_dir (st : ProviderState) (file_id : DriveId) (offset : Nat) :
    Except ErrnoMsg (List FileMetadata) :=
  let parent_id := get_correct_id st file_id
  match aget st.children parent_id with
  | some cs =>
    Except.ok
      ((cs.filterMap (fun id =>
        (aget st.entries id).map (fun e =>
          ({ id := id
             name := (e.metadata.name).getD "NO_NAME"
             attr := e.attr } : FileMetadata)))).drop offset)
  | none => Except.ok []

/-- `wait_for_running_drive_request_if_exists`: await the in-flight task
for `file_id` if any (its result is logged and discarded, a failure does
not propagate) and drop it from `running_requests`.  The awaited task's
effect on the local disk is not modelled. -/
def wait_for_running_drive_request_if_exists (st : ProviderState)
    (file_id : DriveId) : ProviderState :=
  { st with running_requests := st.running_requests.filter (fun x => x ≠ file_id) }

/-- `DriveFileProvider::construct_path`: `perma_dir / id` for pinned
entries, `cache_dir / id` otherwise (the two directories are modelled as
fixed prefixes). -/
def construct_path (st : ProviderState) (id : DriveId) :
    Except String String :=
  match aget st.entries id with
  | none => Except.error "No data found for id"
  | some d => Except.ok ((if d.perma then "perma/" else "cache/") ++ id)

/-- `get_and_open_file_handle`: fetch the handle and, when its file is
not yet open, open it at `path` with the handle's read/write flags (the
open fails when no file exists at the path). -/
def get_and_open_file_handle (st : ProviderState) (fh : Nat) :
    ProviderState × Except String FileHandleData :=
  match aget st.file_handles fh with
  | none => (st, Except.error "Failed to find file_handle")
  | some h =>
    match h.file with
    | some _ => (st, Except.ok h)
    | none =>
      match aget st.files h.path with
      | none => (st, Except.error "error opening the file")
      | some _ =>
        let h2 := { h with file := some h.path, marked_for_open := false }
        ({ st with file_handles := aset st.file_handles fh h2 },
         Except.ok h2)

/-- Content of a file after seeking to `offset` and writing `data`
(zero-filling any gap past the old end). -/
def fileWrite (content : List Nat) (offset : Nat) (data : List Nat) :
    List Nat :=
  content.take offset ++ List.replicate (offset - content.length) 0 ++
    data ++ content.drop (offset + data.length)

/-- `File::set_len`: truncate or zero-extend to `n` bytes. -/
def setLen (content : List Nat) (n : Nat) : List Nat :=
  content.take n ++ List.replicate (n - content.length) 0

/-- `ProviderWriteContentRequest`. -/
structure ProviderWriteContentRequest where
  file_id : DriveId
  offset : Nat
  fh : Nat
  data : List Nat
  deriving DecidableEq

/-- `ProviderReadContentRequest`. -/
structure ProviderReadContentRequest where
  file_id : DriveId
  offset : Nat
  size : Nat
  fh : Nat
  deriving DecidableEq

/-- `ProviderOpenFileRequest` (flags already decoded into `HandleFlags`;
`HandleFlags::from(i32)` is a pure bit test not needed by any claim). -/
structure ProviderOpenFileRequest where
  file_id : DriveId
  flags : HandleFlags
  deriving DecidableEq

/-- `ProviderReleaseFileRequest`. -/
structure ProviderReleaseFileRequest where
  file_id : DriveId
  fh : Nat
  deriving DecidableEq

/-- `ProviderSetAttrRequest`. -/
structure ProviderSetAttrRequest where
  file_id : DriveId
  mode : Option Nat := none
  uid : Option Nat := none
  gid : Option Nat := none
  size : Option Nat := none
  flags : Option Nat := none
  fh : Option Nat := none
  deriving DecidableEq

/-- `ProviderRenameRequest` (names already converted from `OsString`). -/
structure ProviderRenameRequest where
  original_parent : DriveId
  original_name : String
  new_parent : DriveId
  new_name : String
  deriving DecidableEq

/-- `DriveFileProvider::write_content_from_file`: lazily open the
handle's file, require `can_write`, seek to `offset`, write and sync the
data, mark the handle dirty, then add the written byte count to
`attr.size` and set atime/mtime to `now`.  The write is modelled as
complete (`size_written = data.len()`). -/
def write_content_from_file (st : ProviderState) (file_id : DriveId)
    (request : ProviderWriteContentRequest) (now : Nat) :
    ProviderState × Except String Nat :=
  match get_and_open_file_handle st request.fh with
  | (st1, Except.error e) => (st1, Except.error e)
  | (st1, Except.ok h) =>
    if ¬ h.flags.can_write then
      (st1, Except.error "File handle does not have read permissions")
    else
      let content := (aget st1.files h.path).getD []
      let size_written := request.data.length
      let st2 :=
        { st1 with
          files := aset st1.files h.path
            (fileWrite content request.offset request.data)
          file_handles := aset st1.file_handles request.fh
            { h with has_content_changed := true } }
      match aget st2.entries file_id with
      | none =>
        (st2, Except.error "could not find entry to update metadata on")
      | some entry =>
        let entry2 :=
          { entry with attr :=
            { entry.attr with
              size := entry.attr.size + size_written
              atime := now
              mtime := now } }
        ({ st2 with entries := aset st2.entries file_id entry2 },
         Except.ok size_written)

/-- `DriveFileProvider::write_content` (the request handler). -/
def write_content (st : ProviderState)
    (request : ProviderWriteContentRequest) (now : Nat) :
    ProviderState × Except ErrnoMsg Nat :=
  let file_id := get_correct_id st request.file_id
  let st1 := wait_for_running_drive_request_if_exists st file_id
  match write_content_from_file st1 file_id request now with
  | (st2, Except.error e) => (st2, Except.error (e, EIO))
  | (st2, Except.ok n) => (st2, Except.ok n)

/-- `DriveFileProvider::read_content_from_file`: lazily open, require
`can_read`, seek to `offset`, read into a zeroed buffer of `size` bytes
and return the whole buffer (the single `read` call is modelled as
returning everything available from `offset`, at most `size` bytes). -/
def read_content_from_file (st : ProviderState)
    (request : ProviderReadContentRequest) :
    ProviderState × Except String (List Nat) :=
  match get_and_open_file_handle st request.fh with
  | (st1, Except.error e) => (st1, Except.error e)
  | (st1, Except.ok h) =>
    if ¬ h.flags.can_read then
      (st1, Except.error "File handle does not have read permissions")
    else
      let content := (aget st1.files h.path).getD []
      let size_read := min request.size (content.length - request.offset)
      let buf := (content.drop request.offset).take request.size ++
        List.replicate (request.size - size_read) 0
      (st1, Except.ok buf)

/-- `DriveFileProvider::read_content` (the request handler). -/
def read_content (st : ProviderState)
    (request : ProviderReadContentRequest) :
    ProviderState × Except ErrnoMsg (List Nat) :=
  let file_id := get_correct_id st request.file_id
  let st1 := wait_for_running_drive_request_if_exists st file_id
  match read_content_from_file st1 request with
  | (st2, Except.error e) => (st2, Except.error (e, EIO))
  | (st2, Except.ok d) => (st2, Except.ok d)

/-- `DriveFileProvider::update_remote_metadata`: fetch the entry,
prepare the staged metadata and hand it to the drive client (the remote
call's future is dropped without being awaited in the source, so the
call itself never fails here). -/
def update_remote_metadata (st : ProviderState) (id : DriveId) :
    Except String Unit :=
  match aget st.entries id with
  | none => Except.error "Could not get entry with id"
  | some _ => Except.ok ()

/-- The in-place mutation `rename_inner` performs on the located entry:
stage the new name when it differs, set atime/mtime to now, stage the
new parent list when the parent differs. -/
def rename_entry_update (entry : FileData) (original_parent : DriveId)
    (original_name : String) (new_parent : DriveId) (new_name : String)
    (now : Nat) : FileData :=
  let entry2 :=
    if original_name ≠ new_name then
      { entry with changed_metadata :=
        { entry.changed_metadata with name := some new_name } }
    else entry
  let entry3 :=
    { entry2 with attr := { entry2.attr with atime := now, mtime := now } }
  if original_parent ≠ new_parent then
    { entry3 with changed_metadata :=
      { entry3.changed_metadata with parents := some [new_parent] } }
  else entry3

/-- `DriveFileProvider::rename_inner`.  Mirrors the source order: locate
the source entry by `(original_parent, original_name)`, take its id, wait
for any in-flight request, then the (inverted) `check_id_exists` test on
`new_parent`, the sibling-name test, the staged-metadata and attribute
updates, the graph rewrite when the parent changed, and the remote
metadata update.  The `expect` after the checks is modelled as an error
(it would be a panic). -/
def rename_inner (st : ProviderState) (original_parent : DriveId)
    (original_name : String) (new_parent : DriveId) (new_name : String)
    (now : Nat) : ProviderState × Except ErrnoMsg Unit :=
  match find_first_child_by_name st original_name original_parent with
  | none => (st, Except.error ("Could not find rename source", ENOENT))
  | some file_entry =>
    match file_entry.get_id with
    | none => (st, Except.error ("Could not get id from entry", EINVAL))
    | some file_id =>
      let st1 := wait_for_running_drive_request_if_exists st file_id
      if check_id_exists st1 new_parent then
        (st1, Except.error ("Folder does not exist", ENOENT))
      else if does_target_name_exist_under_parent st1 new_parent new_name then
        (st1, Except.error ("Target name is already used", EADDRINUSE))
      else
        match aget st1.entries file_id with
        | none =>
          (st1, Except.error
            ("PANIC: We checked shortly before if the entry exists", EIO))
        | some entry =>
          let entry4 := rename_entry_update entry original_parent
            original_name new_parent new_name now
          let st2 := { st1 with entries := aset st1.entries file_id entry4 }
          let st3 :=
            if original_parent ≠ new_parent then
              add_parent_child_relation
                (remove_parent_child_relation st2 original_parent file_id)
                new_parent file_id
            else st2
          match update_remote_metadata st3 file_id with
          | Except.error _ =>
            (st3, Except.error ("Error while uploading Metadata", EREMOTEIO))
          | Except.ok _ => (st3, Except.ok ())

/-- `DriveFileProvider::rename` (the request handler): resolve both
parent ids through `get_correct_id`, then `rename_inner`. -/
def rename (st : ProviderState) (request : ProviderRenameRequest)
    (now : Nat) : ProviderState × Except ErrnoMsg Unit :=
  let original_parent := get_correct_id st request.original_parent
  let new_parent := get_correct_id st request.new_parent
  rename_inner st original_parent request.original_name new_parent
    request.new_name now

/-- `DriveFileProvider::set_underlying_file_size`: prefer `set_len` on
the open handle's file; otherwise open the entry's cache path for
writing and `set_len` there. -/
def set_underlying_file_size (st : ProviderState) (file_id : DriveId)
    (fh : Option Nat) (size : Nat) : ProviderState × Except String Unit :=
  let viaHandle : Option String :=
    match fh with
    | some fhv =>
      match aget st.file_handles fhv with
      | some h => h.file
      | none => none
    | none => none
  match viaHandle with
  | some path =>
    let c0 := (aget st.files path).getD []
    ({ st with files := aset st.files path (setLen c0 size) },
     Except.ok ())
  | none =>
    match construct_path st file_id with
    | Except.error e => (st, Except.error e)
    | Except.ok path =>
      match aget st.files path with
      | none => (st, Except.error "could not open file to set the size")
      | some content =>
        ({ st with files := aset st.files path (setLen content size) },
         Except.ok ())

/-- `DriveFileProvider::set_attr`: wait for in-flight, require the
entry, then apply size (resizing the underlying file), flags and mode to
a local copy of the attributes, store it back and reply with the entry's
metadata.  gid/uid are logged and ignored; `mode as u16` truncates. -/
def set_attr (st : ProviderState) (request : ProviderSetAttrRequest) :
    ProviderState × Except ErrnoMsg FileMetadata :=
  let file_id := get_correct_id st request.file_id
  let st1 := wait_for_running_drive_request_if_exists st file_id
  match aget st1.entries file_id with
  | none => (st1, Except.error ("could not find entry with id", ENOENT))
  | some entry =>
    let attr0 := entry.attr
    let sized :=
      match request.size with
      | some size =>
        let attr1 := { attr0 with size := size }
        match set_underlying_file_size st1 file_id request.fh size with
        | (st2, Except.error e) => (st2, Except.error (e, EIO))
        | (st2, Except.ok _) => (st2, Except.ok attr1)
      | none => (st1, Except.ok attr0)
    match sized with
    | (st2, Except.error e) => (st2, Except.error e)
    | (st2, Except.ok attr1) =>
      let attr2 :=
        match request.flags with
        | some fl => { attr1 with flags := fl }
        | none => attr1
      let attr3 :=
        match request.mode with
        | some mode => { attr2 with perm := mode % 65536 }
        | none => attr2
      let entry2 := { entry with attr := attr3 }
      ({ st2 with entries := aset st2.entries file_id entry2 },
       Except.ok (create_file_metadata_from_entry entry2))

/-- `DriveFileProvider::create_fh`. -/
def create_fh (st : ProviderState) (flags : HandleFlags) (path : String)
    (create : Bool) (mark_for_open : Bool) : ProviderState × Nat :=
  let fh := st.next_fh
  ({ st with
     next_fh := st.next_fh + 1
     file_handles := aset st.file_handles fh
       { creating := create
         flags := flags
         file := none
         path := path
         marked_for_open := mark_for_open
         has_content_changed := false } },
   fh)

/-- Outcome of `start_download_call`: success, an error response already
sent to the requester (in-flight request present), or an error
propagated with `?` to the request loop (entry missing), in which case
no reply is sent at all. -/
inductive DlOutcome where
  | ok
  | errResponded (e : ErrnoMsg)
  | errPropagated (e : String)
  deriving DecidableEq

/-- `DriveFileProvider::start_download_call`: re-resolve the request id,
set `is_local = true` on the entry optimistically, then — unless a
request is already running for the id — spawn the download task and
record it in `running_requests` (and in the ghost `downloads` log). -/
def start_download_call (st : ProviderState) (raw_file_id : DriveId) :
    ProviderState × DlOutcome :=
  let file_id := get_correct_id st raw_file_id
  match aget st.entries file_id with
  | none => (st, DlOutcome.errPropagated "could not find entry")
  | some entry =>
    let e2 := { entry with is_local := true }
    let st1 := { st with entries := aset st.entries file_id e2 }
    if file_id ∈ st1.running_requests then
      (st1, DlOutcome.errResponded ("Id already has a request running", EIO))
    else
      ({ st1 with
         running_requests := file_id :: st1.running_requests
         downloads := file_id :: st1.downloads },
       DlOutcome.ok)

/-- `DriveFileProvider::open_file`: wait for in-flight, construct the
cache path, start a download when the entry is not local, then allocate
a file handle.  In the `errResponded` branch the source still allocates
the handle and sends a second (success) response after the error; the
error is what the adapter's single receive observes, so it is the
returned value here. -/
def open_file (st : ProviderState) (request : ProviderOpenFileRequest) :
    ProviderState × Except ErrnoMsg (Nat × HandleFlags) :=
  let file_id := get_correct_id st request.file_id
  let st1 := wait_for_running_drive_request_if_exists st file_id
  match construct_path st1 file_id with
  | Except.error e => (st1, Except.error (e, EIO))
  | Except.ok target_path =>
    let isLoc := is_local_of st1 file_id
    let dl :=
      if ¬ isLoc then start_download_call st1 request.file_id
      else (st1, DlOutcome.ok)
    match dl with
    | (st2, DlOutcome.errPropagated e) => (st2, Except.error (e, EIO))
    | (st2, DlOutcome.errResponded e) =>
      let st3 := (create_fh st2 request.flags target_path false true).1
      (st3, Except.error e)
    | (st2, DlOutcome.ok) =>
      match create_fh st2 request.flags target_path false true with
      | (st3, fh) => (st3, Except.ok (fh, request.flags))

/-- `DriveFileProvider::start_upload_call`: refuse when a request is
already in flight for the id, require the entry and its cache path, then
spawn the upload task and record it in `running_requests`. -/
def start_upload_call (st : ProviderState) (id : DriveId) :
    ProviderState × Except String Unit :=
  if id ∈ st.running_requests then
    (st, Except.error "Id already has a request running")
  else
    match aget st.entries id with
    | none => (st, Except.error "could not find data for id")
    | some _ =>
      match construct_path st id with
      | Except.error e => (st, Except.error e)
      | Except.ok _ =>
        ({ st with running_requests := id :: st.running_requests },
         Except.ok ())

/-- `DriveFileProvider::release_file`: wait for in-flight, remove the
handle, and when it was dirty start the background upload. -/
def release_file (st : ProviderState)
    (request : ProviderReleaseFileRequest) :
    ProviderState × Except ErrnoMsg Unit :=
  let file_id := get_correct_id st request.file_id
  let st1 := wait_for_running_drive_request_if_exists st file_id
  match aget st1.file_handles request.fh with
  | none => (st1, Except.error ("could not get entry", EIO))
  | some h =>
    let st2 := { st1 with file_handles := aremove st1.file_handles request.fh }
    if h.has_content_changed then
      match start_upload_call st2 file_id with
      | (st3, Except.error e) => (st3, Except.error (e, EIO))
      | (st3, Except.ok _) => (st3, Except.ok ())
    else
      (st2, Except.ok ())

/-- The mime-type strings whose entries are dropped at ingest — the
match arms of `convert_mime_type_to_file_type` that return an error.
Note the literal `application/vnd.google-apps.*` arm: it matches only
that exact string, not a wildcard. -/
def google_app_mime_types : List String :=
  ["application/vnd.google-apps.document",
   "application/vnd.google-apps.spreadsheet",
   "application/vnd.google-apps.drawing",
   "application/vnd.google-apps.form",
   "application/vnd.google-apps.presentation",
   "application/vnd.google-apps.drive-sdk",
   "application/vnd.google-apps.script",
   "application/vnd.google-apps.*"]

/-- `convert_mime_type_to_file_type`: folder becomes a directory, the
google-app types are rejected, everything else is a regular file. -/
def convert_mime_type_to_file_type (mime_type : String) :
    Except String FileType :=
  if mime_type = "application/vnd.google-apps.folder" then
    Except.ok FileType.Directory
  else if mime_type ∈ google_app_mime_types then
    Except.error "google app files are not supported (docs, sheets, etc)"
  else
    Except.ok FileType.RegularFile

/-- `create_file_attr_from_metadata`: kind from the mime-type (default
`"NONE"`), permissions 0755 for directories and 0644 otherwise, size
`unwrap_or(0)` cast to `u64`, times `unwrap_or(UNIX_EPOCH)` (epoch is
0), ctime `now`. -/
def create_file_attr_from_metadata (now : Nat)
    (metadata : DriveFileMetadata) : Except String FileAttr :=
  match convert_mime_type_to_file_type ((metadata.mimeType).getD "NONE") with
  | Except.error e => Except.error e
  | Except.ok kind =>
    let permissions : Nat :=
      match kind with
      | FileType.Directory => 0o755
      | _ => 0o644
    Except.ok
      { ino := 0
        size := (((metadata.size).getD 0) % ((2 : Int) ^ 64)).toNat
        atime := (metadata.viewedByMeTime).getD 0
        mtime := (metadata.modifiedTime).getD 0
        ctime := now
        crtime := (metadata.createdTime).getD 0
        kind := kind
        perm := permissions
        flags := 0 }

/-- `add_child_parent_relations`: one relation per reported parent, or
an attachment to the resolved root when no parents are reported. -/
def add_child_parent_relations (st : ProviderState)
    (entry : DriveFileMetadata) (id : DriveId) : ProviderState :=
  match entry.parents with
  | some ps => ps.foldl (fun s p => add_parent_child_relation s p id) st
  | none =>
    add_parent_child_relation st (get_correct_id st rootSentinelId) id

/-- `add_drive_entry_to_entries`: skip entries without an id, drop
entries whose attributes cannot be built (google-app mime types), else
install the parent/child relations and store the entry (not local, not
pinned, no staged changes). -/
def add_drive_entry_to_entries (st : ProviderState) (now : Nat)
    (entry : DriveFileMetadata) : ProviderState :=
  match entry.id with
  | none => st
  | some id =>
    match create_file_attr_from_metadata now entry with
    | Except.error _ => st
    | Except.ok attr =>
      let st1 := add_child_parent_relations st entry id
      let d : FileData :=
        { metadata := entry
          changed_metadata := {}
          perma := false
          attr := attr
          is_local := false }
      { st1 with entries := aset st1.entries id d }

/-- `add_root_entry`: fetch the root metadata (passed in as `metadata`),
build its attributes, record the remote-reported id as `alt_root_id` and
store the root entry under it.  A missing id would be an unwrap panic,
modelled as an error. -/
def add_root_entry (st : ProviderState) (now : Nat)
    (metadata : DriveFileMetadata) : Except String ProviderState :=
  match create_file_attr_from_metadata now metadata with
  | Except.error e => Except.error e
  | Except.ok attr =>
    match metadata.id with
    | none => Except.error "PANIC: root metadata has no id"
    | some returned_id =>
      Except.ok
        { st with
          alt_root_id := returned_id
          entries := aset st.entries returned_id
            { metadata := metadata
              changed_metadata := {}
              perma := false
              attr := attr
              is_local := false } }

/-- `initialize_entries` (named `init_entries` here): add the root
entry, then ingest every listed object. -/
def init_entries (st : ProviderState) (now : Nat)
    (rootMeta : DriveFileMetadata) (listing : List DriveFileMetadata) :
    Except String ProviderState :=
  match add_root_entry st now rootMeta with
  | Except.error e => Except.error e
  | Except.ok st1 =>
    Except.ok (listing.foldl (fun s e => add_drive_entry_to_entries s now e) st1)

/-- `ChangeType` from src/fs/drive/change.rs (the `Drive` payload is
irrelevant to the provider, which `todo!`s on it). -/
inductive ChangeType where
  | Drive
  | File (metadata : DriveFileMetadata)
  | Removed
  deriving DecidableEq

/-- `Change` (the fields the provider reads). -/
structure Change where
  id : DriveId
  kind : ChangeType
  deriving DecidableEq

/-- `process_file_change`: merge size, name, description and thumbnail
into the entry (`size as u64` wraps); a parent difference is only
logged, not applied. -/
def process_file_change (entry : FileData) (change : DriveFileMetadata) :
    FileData :=
  let e1 :=
    match change.size with
    | some size =>
      { entry with
        metadata := { entry.metadata with size := some size }
        attr := { entry.attr with size := (size % ((2 : Int) ^ 64)).toNat } }
    | none => entry
  let e2 :=
    match change.name with
    | some n => { e1 with metadata := { e1.metadata with name := some n } }
    | none => e1
  let e3 :=
    match change.description with
    | some d => { e2 with metadata := { e2.metadata with description := some d } }
    | none => e2
  match change.thumbnailLink with
  | some t => { e3 with metadata := { e3.metadata with thumbnailLink := some t } }
  | none => e3

/-- `process_change`: resolve the id; for a `File` change on a known
entry, merge it.  The `Drive`, `Removed` and unknown-id branches are
`todo!()` panics in the source — the provider has no successor state
there, modelled conservatively as no state change. -/
def process_change (st : ProviderState) (change : Change) :
    ProviderState :=
  let id := get_correct_id st change.id
  match aget st.entries id, change.kind with
  | some entry, ChangeType.File fc =>
    { st with entries := aset st.entries id (process_file_change entry fc) }
  | _, _ => st

/-- `process_remote_file_moved`: when the change reports parents that
differ from the stored ones, remove every stored parent relation, add a
relation for every new parent (both through `get_correct_id`) and store
the new parent list in the entry's metadata. -/
def process_remote_file_moved (st : ProviderState) (id : DriveId)
    (file_change_parents : Option (List DriveId)) : ProviderState :=
  match file_change_parents with
  | none => st
  | some changed_parents =>
    match aget st.entries id with
    | none => st
    | some entry =>
      if some changed_parents = entry.metadata.parents then st
      else
        let st1 :=
          match entry.metadata.parents with
          | some existing =>
            existing.foldl
              (fun s e => remove_parent_child_relation s (get_correct_id s e) id)
              st
          | none => st
        let st2 :=
          changed_parents.foldl
            (fun s np => add_parent_child_relation s (get_correct_id s np) id)
            st1
        match aget st2.entries id with
        | some em =>
          let em2 :=
            { em with metadata :=
              { em.metadata with parents := some changed_parents } }
          { st2 with entries := aset st2.entries id em2 }
        | none => st2

/-- One provider transition: a request handled by
`listen_for_file_requests` or one folded change from the change feed.
`lookup`, `metadata` and `read_dir` take the state immutably and are not
listed.  The dead `process_remote_file_moved` is included because the
consistency claim names it. -/
inductive Step : ProviderState → ProviderState → Prop where
  | open_file (st : ProviderState) (request : ProviderOpenFileRequest) :
      Step st (open_file st request).1
  | release_file (st : ProviderState)
      (request : ProviderReleaseFileRequest) :
      Step st (release_file st request).1
  | read_content (st : ProviderState)
      (request : ProviderReadContentRequest) :
      Step st (read_content st request).1
  | write_content (st : ProviderState)
      (request : ProviderWriteContentRequest) (now : Nat) :
      Step st (write_content st request now).1
  | set_attr (st : ProviderState) (request : ProviderSetAttrRequest) :
      Step st (set_attr st request).1
  | rename (st : ProviderState) (request : ProviderRenameRequest)
      (now : Nat) :
      Step st (rename st request now).1
  | process_change (st : ProviderState) (change : Change) :
      Step st (process_change st change)
  | process_remote_file_moved (st : ProviderState) (id : DriveId)
      (ps : Option (List DriveId)) :
      Step st (process_remote_file_moved st id ps)

/-- Remote inputs presented at startup: ids reported by the drive are
never the literal `"root"` sentinel (the remote reports real object
ids; the sentinel is purely a kernel-facing alias). -/
def HonestMeta (m : DriveFileMetadata) : Prop :=
  (∀ i, m.id = some i → i ≠ rootSentinelId) ∧
  (∀ ps, m.parents = some ps → rootSentinelId ∉ ps)

/-- Provider states reachable by the source: `new()` followed by
`initialize_entries` (root metadata plus a listing, both honest), then
any sequence of `Step` transitions. -/
inductive Reach : ProviderState → Prop where
  | boot (now : Nat) (rootMeta : DriveFileMetadata)
      (listing : List DriveFileMetadata) (st : ProviderState)
      (hinit : init_entries ProviderState.new now rootMeta listing =
        Except.ok st)
      (hroot : HonestMeta rootMeta)
      (hlist : ∀ m ∈ listing, HonestMeta m) :
      Reach st
  | step (st st2 : ProviderState) (h : Reach st) (hs : Step st st2) :
      Reach st2

instance {ε α : Type} [DecidableEq ε] [DecidableEq α] :
    DecidableEq (Except ε α) := fun x y =>
  match x, y with
  | Except.error a, Except.error b =>
    if h : a = b then isTrue (by rw [h])
    else isFalse (fun hc => h (by cases hc; rfl))
  | Except.error _, Except.ok _ => isFalse (fun hc => Except.noConfusion hc)
  | Except.ok _, Except.error _ => isFalse (fun hc => Except.noConfusion hc)
  | Except.ok a, Except.ok b =>
    if h : a = b then isTrue (by rw [h])
    else isFalse (fun hc => h (by cases hc; rfl))

theorem aget_aset {α β : Type} [DecidableEq α] (m : List (α × β))
    (k k2 : α) (v : β) :
    aget (aset m k v) k2 = if k2 = k then some v else aget m k2 := by
  simp [aget, aset]

theorem mem_of_aget {α β : Type} [DecidableEq α] {m : List (α × β)}
    {k : α} {v : β} (h : aget m k = some v) : (k, v) ∈ m := by
  induction m with
  | nil => simp [aget] at h
  | cons kv rest ih =>
    obtain ⟨k2, v2⟩ := kv
    by_cases hk : k = k2
    · subst hk
      simp [aget] at h
      simp [h]
    · simp [aget, hk] at h
      exact List.mem_cons_of_mem _ (ih h)

theorem countOcc_append (l1 l2 : List String) (v : String) :
    countOcc (l1 ++ l2) v = countOcc l1 v + countOcc l2 v := by
  induction l1 with
  | nil => simp [countOcc]
  | cons x xs ih => simp [countOcc, ih]; omega

theorem countOcc_pos_iff (l : List String) (v : String) :
    0 < countOcc l v ↔ v ∈ l := by
  induction l with
  | nil => simp [countOcc]
  | cons x xs ih =>
    by_cases hx : x = v
    · subst hx; simp [countOcc]
    · simp [countOcc, hx, ih, Ne.symm hx]

theorem countOcc_remove_first (l : List DriveId) (t v : DriveId) :
    countOcc (remove_first_element l t) v =
      if v = t then countOcc l v - 1 else countOcc l v := by
  induction l with
  | nil => simp [remove_first_element, countOcc]
  | cons x xs ih =>
    by_cases hx : x = t
    · subst hx
      by_cases hv : v = x
      · subst hv; simp [remove_first_element, countOcc]
      · simp [remove_first_element, countOcc, hv, Ne.symm hv]
    · by_cases hv : x = v
      · subst hv
        simp [remove_first_element, countOcc, hx, ih]
      · simp [remove_first_element, countOcc, hx, hv, ih]

theorem mem_of_mem_remove_first {l : List DriveId} {t x : DriveId}
    (h : x ∈ remove_first_element l t) : x ∈ l := by
  induction l with
  | nil => simp [remove_first_element] at h
  | cons y ys ih =>
    by_cases hy : y = t
    · subst hy
      simp [remove_first_element] at h
      simp [h]
    · simp [remove_first_element, hy] at h
      rcases h with h | h
      · simp [h]
      · exact List.mem_cons_of_mem _ (ih h)

theorem children_of_add (st : ProviderState) (p c q : DriveId) :
    children_of (add_parent_child_relation st p c) q =
      if q = p then children_of st p ++ [c] else children_of st q := by
  unfold add_parent_child_relation
  cases h : aget st.children p <;>
    simp [children_of, aget_aset, h] <;>
    by_cases hq : q = p <;> simp [hq, h]

theorem parents_of_add (st : ProviderState) (p c d : DriveId) :
    parents_of (add_parent_child_relation st p c) d =
      if d = c then parents_of st c ++ [p] else parents_of st d := by
  unfold add_parent_child_relation
  cases h : aget st.parents c <;>
    simp [parents_of, aget_aset, h] <;>
    by_cases hd : d = c <;> simp [hd, h]

theorem children_of_remove (st : ProviderState) (p c q : DriveId) :
    children_of (remove_parent_child_relation st p c) q =
      if q = p then remove_first_element (children_of st p) c
      else children_of st q := by
  unfold remove_parent_child_relation
  cases h : aget st.children p <;>
    simp [children_of, aget_aset, h] <;>
    by_cases hq : q = p <;> simp [hq, h, remove_first_element]

theorem parents_of_remove (st : ProviderState) (p c d : DriveId) :
    parents_of (remove_parent_child_relation st p c) d =
      if d = c then remove_first_element (parents_of st c) p
      else parents_of st d := by
  unfold remove_parent_child_relation
  cases h : aget st.parents c <;>
    simp [parents_of, aget_aset, h] <;>
    by_cases hd : d = c <;> simp [hd, h, remove_first_element]

/-- The graph consistency invariant, counted: `p` occurs in
`parents[c]` exactly as often as `c` occurs in `children[p]`. -/
def GraphOK (st : ProviderState) : Prop :=
  ∀ p c, countOcc (children_of st p) c = countOcc (parents_of st c) p

/-- No binding of a relation map mentions the `"root"` sentinel. -/
def NoRootKeysVals (m : List (DriveId × List DriveId)) : Prop :=
  ∀ kv ∈ m, kv.1 ≠ rootSentinelId ∧ rootSentinelId ∉ kv.2

/-- The master invariant of reachable provider states. -/
structure Inv (st : ProviderState) : Prop where
  alt_ne : st.alt_root_id ≠ rootSentinelId
  entries_ok : ∀ kv ∈ st.entries,
    kv.1 ≠ rootSentinelId ∧ kv.2.metadata.id = some kv.1
  parents_ok : NoRootKeysVals st.parents
  children_ok : NoRootKeysVals st.children
  graph_ok : GraphOK st
  downloads_ok : ∀ id, countOcc st.downloads id ≤ 1
  downloads_local : ∀ id, is_local_of st id = false →
    countOcc st.downloads id = 0

theorem graphOK_add (st : ProviderState) (p c : DriveId)
    (h : GraphOK st) : GraphOK (add_parent_child_relation st p c) := by
  intro q d
  rw [children_of_add, parents_of_add]
  by_cases hq : q = p
  · subst hq
    by_cases hd : d = c
    · subst hd
      simp [countOcc_append, countOcc, h q d]
    · simp [hd, countOcc_append, countOcc, Ne.symm hd, h q d]
  · by_cases hd : d = c
    · subst hd
      simp [hq, countOcc_append, countOcc, Ne.symm hq, h q d]
    · simp [hq, hd, h q d]

theorem graphOK_remove (st : ProviderState) (p c : DriveId)
    (h : GraphOK st) : GraphOK (remove_parent_child_relation st p c) := by
  intro q d
  rw [children_of_remove, parents_of_remove]
  by_cases hq : q = p <;> by_cases hd : d = c <;>
    simp [hq, hd, countOcc_remove_first, h q d, h p c, h p d, h q c]

theorem noRootKeysVals_aset (m : List (DriveId × List DriveId))
    (k : DriveId) (l : List DriveId) (hm : NoRootKeysVals m)
    (hk : k ≠ rootSentinelId) (hl : rootSentinelId ∉ l) :
    NoRootKeysVals (aset m k l) := by
  intro kv hkv
  rcases List.mem_cons.mp hkv with h | h
  · subst h; exact ⟨hk, hl⟩
  · exact hm kv h

theorem parents_no_root_add (st : ProviderState) (p c : DriveId)
    (hp : p ≠ rootSentinelId) (hc : c ≠ rootSentinelId)
    (hm : NoRootKeysVals st.parents) :
    NoRootKeysVals (add_parent_child_relation st p c).parents := by
  unfold add_parent_child_relation
  cases h : aget st.parents c
  · simp only [h]
    apply noRootKeysVals_aset _ _ _ hm hc
    simp [Ne.symm hp]
  · rename_i l
    simp only [h]
    apply noRootKeysVals_aset _ _ _ hm hc
    have hl : rootSentinelId ∉ l := (hm (c, l) (mem_of_aget h)).2
    simp [hl, Ne.symm hp]

theorem children_no_root_add (st : ProviderState) (p c : DriveId)
    (hp : p ≠ rootSentinelId) (hc : c ≠ rootSentinelId)
    (hm : NoRootKeysVals st.children) :
    NoRootKeysVals (add_parent_child_relation st p c).children := by
  unfold add_parent_child_relation
  cases h : aget st.children p
  · simp only [h]
    apply noRootKeysVals_aset _ _ _ hm hp
    simp [Ne.symm hc]
  · rename_i l
    simp only [h]
    apply noRootKeysVals_aset _ _ _ hm hp
    have hl : rootSentinelId ∉ l := (hm (p, l) (mem_of_aget h)).2
    simp [hl, Ne.symm hc]

theorem parents_no_root_remove (st : ProviderState) (p c : DriveId)
    (hm : NoRootKeysVals st.parents) :
    NoRootKeysVals (remove_parent_child_relation st p c).parents := by
  unfold remove_parent_child_relation
  cases h : aget st.parents c
  · simp only [h]
    exact hm
  · rename_i l
    simp only [h]
    have hcl := hm (c, l) (mem_of_aget h)
    apply noRootKeysVals_aset _ _ _ hm hcl.1
    intro hmem
    exact hcl.2 (mem_of_mem_remove_first hmem)

theorem children_no_root_remove (st : ProviderState) (p c : DriveId)
    (hm : NoRootKeysVals st.children) :
    NoRootKeysVals (remove_parent_child_relation st p c).children := by
  unfold remove_parent_child_relation
  cases h : aget st.children p
  · simp only [h]
    exact hm
  · rename_i l
    simp only [h]
    have hcl := hm (p, l) (mem_of_aget h)
    apply noRootKeysVals_aset _ _ _ hm hcl.1
    intro hmem
    exact hcl.2 (mem_of_mem_remove_first hmem)

theorem Inv_of_fields (st st2 : ProviderState)
    (h1 : st2.alt_root_id = st.alt_root_id) (h2 : st2.entries = st.entries)
    (h3 : st2.parents = st.parents) (h4 : st2.children = st.children)
    (h5 : st2.downloads = st.downloads) (hI : Inv st) : Inv st2 := by
  constructor
  · rw [h1]; exact hI.alt_ne
  · rw [h2]; exact hI.entries_ok
  · rw [h3]; exact hI.parents_ok
  · rw [h4]; exact hI.children_ok
  · intro p c
    unfold children_of parents_of
    rw [h3, h4]
    exact hI.graph_ok p c
  · rw [h5]; exact hI.downloads_ok
  · intro id
    unfold is_local_of
    rw [h2, h5]
    exact hI.downloads_local id

theorem Inv_upd_entry (st : ProviderState) (k : DriveId)
    (v old : FileData) (hI : Inv st) (hget : aget st.entries k = some old)
    (hid : v.metadata.id = old.metadata.id)
    (hloc : v.is_local = false → old.is_local = false) :
    Inv { st with entries := aset st.entries k v } := by
  have hold := hI.entries_ok (k, old) (mem_of_aget hget)
  constructor
  · exact hI.alt_ne
  · intro kv hkv
    rcases List.mem_cons.mp hkv with h | h
    · subst h
      exact ⟨hold.1, by rw [hid]; exact hold.2⟩
    · exact hI.entries_ok kv h
  · exact hI.parents_ok
  · exact hI.children_ok
  · exact hI.graph_ok
  · exact hI.downloads_ok
  · intro id hil
    by_cases hk : id = k
    · subst hk
      simp [is_local_of, aget_aset] at hil
      have : is_local_of st id = false := by
        simp [is_local_of, hget, hloc hil]
      exact hI.downloads_local id this
    · have : is_local_of st id = false := by
        simpa [is_local_of, aget_aset, hk] using hil
      exact hI.downloads_local id this

/-- The fields of the state the invariant depends on (handles, next_fh,
running requests and disk contents are irrelevant to it). -/
def coreEq (st2 st : ProviderState) : Prop :=
  st2.alt_root_id = st.alt_root_id ∧ st2.entries = st.entries ∧
  st2.parents = st.parents ∧ st2.children = st.children ∧
  st2.downloads = st.downloads

theorem coreEq_refl (st : ProviderState) : coreEq st st :=
  ⟨rfl, rfl, rfl, rfl, rfl⟩

theorem coreEq_trans {st3 st2 st : ProviderState} (h1 : coreEq st3 st2)
    (h2 : coreEq st2 st) : coreEq st3 st :=
  ⟨h1.1.trans h2.1, h1.2.1.trans h2.2.1, h1.2.2.1.trans h2.2.2.1,
   h1.2.2.2.1.trans h2.2.2.2.1, h1.2.2.2.2.trans h2.2.2.2.2⟩

theorem Inv_of_coreEq {st2 st : ProviderState} (h : coreEq st2 st)
    (hI : Inv st) : Inv st2 :=
  Inv_of_fields st st2 h.1 h.2.1 h.2.2.1 h.2.2.2.1 h.2.2.2.2 hI

theorem is_local_of_coreEq {st2 st : ProviderState} (h : coreEq st2 st)
    (id : DriveId) : is_local_of st2 id = is_local_of st id := by
  unfold is_local_of
  rw [h.2.1]

theorem coreEq_wait (st : ProviderState) (id : DriveId) :
    coreEq (wait_for_running_drive_request_if_exists st id) st :=
  ⟨rfl, rfl, rfl, rfl, rfl⟩

theorem coreEq_gaofh (st : ProviderState) (fh : Nat) :
    coreEq (get_and_open_file_handle st fh).1 st := by
  unfold get_and_open_file_handle
  split
  · exact coreEq_refl st
  · split
    · exact coreEq_refl st
    · split
      · exact coreEq_refl st
      · exact ⟨rfl, rfl, rfl, rfl, rfl⟩

theorem coreEq_create_fh (st : ProviderState) (flags : HandleFlags)
    (path : String) (b1 b2 : Bool) :
    coreEq (create_fh st flags path b1 b2).1 st :=
  ⟨rfl, rfl, rfl, rfl, rfl⟩

theorem fst_of_eq {α β : Type} {p : α × β} {a : α} {b : β}
    (h : p = (a, b)) : p.1 = a := by
  rw [h]

theorem coreEq_rcff (st : ProviderState)
    (request : ProviderReadContentRequest) :
    coreEq (read_content_from_file st request).1 st := by
  unfold read_content_from_file
  split
  next st1 e heq =>
    rw [← fst_of_eq heq]
    exact coreEq_gaofh st request.fh
  next st1 h heq =>
    split
    · rw [← fst_of_eq heq]
      exact coreEq_gaofh st request.fh
    · rw [← fst_of_eq heq]
      exact coreEq_gaofh st request.fh

theorem coreEq_read_content (st : ProviderState)
    (request : ProviderReadContentRequest) :
    coreEq (read_content st request).1 st := by
  unfold read_content
  dsimp only
  split
  next st2 e heq =>
    rw [← fst_of_eq heq]
    exact coreEq_trans (coreEq_rcff _ request) (coreEq_wait st _)
  next st2 d heq =>
    rw [← fst_of_eq heq]
    exact coreEq_trans (coreEq_rcff _ request) (coreEq_wait st _)

theorem coreEq_start_upload (st : ProviderState) (id : DriveId) :
    coreEq (start_upload_call st id).1 st := by
  unfold start_upload_call
  split
  · exact coreEq_refl st
  · split
    · exact coreEq_refl st
    · split
      · exact coreEq_refl st
      · exact ⟨rfl, rfl, rfl, rfl, rfl⟩

theorem coreEq_release_file (st : ProviderState)
    (request : ProviderReleaseFileRequest) :
    coreEq (release_file st request).1 st := by
  unfold release_file
  dsimp only
  split
  · exact coreEq_wait st _
  · split
    · split
      next st3 e heq =>
        rw [← fst_of_eq heq]
        exact coreEq_trans (coreEq_start_upload _ _) ⟨rfl, rfl, rfl, rfl, rfl⟩
      next st3 u heq =>
        rw [← fst_of_eq heq]
        exact coreEq_trans (coreEq_start_upload _ _) ⟨rfl, rfl, rfl, rfl, rfl⟩
    · exact ⟨rfl, rfl, rfl, rfl, rfl⟩

theorem get_correct_id_ne_root (st : ProviderState) (id : DriveId)
    (halt : st.alt_root_id ≠ rootSentinelId) :
    get_correct_id st id ≠ rootSentinelId := by
  unfold get_correct_id
  split
  · exact halt
  · assumption

theorem Inv_add_rel (st : ProviderState) (p c : DriveId)
    (hp : p ≠ rootSentinelId) (hc : c ≠ rootSentinelId) (hI : Inv st) :
    Inv (add_parent_child_relation st p c) := by
  constructor
  · exact hI.alt_ne
  · exact hI.entries_ok
  · exact parents_no_root_add st p c hp hc hI.parents_ok
  · exact children_no_root_add st p c hp hc hI.children_ok
  · exact graphOK_add st p c hI.graph_ok
  · exact hI.downloads_ok
  · exact hI.downloads_local

theorem Inv_remove_rel (st : ProviderState) (p c : DriveId)
    (hI : Inv st) : Inv (remove_parent_child_relation st p c) := by
  constructor
  · exact hI.alt_ne
  · exact hI.entries_ok
  · exact parents_no_root_remove st p c hI.parents_ok
  · exact children_no_root_remove st p c hI.children_ok
  · exact graphOK_remove st p c hI.graph_ok
  · exact hI.downloads_ok
  · exact hI.downloads_local

theorem Inv_remove_fold (l : List DriveId) (st : ProviderState)
    (id : DriveId) (hI : Inv st) :
    Inv (l.foldl
      (fun s e => remove_parent_child_relation s (get_correct_id s e) id)
      st) := by
  induction l generalizing st with
  | nil => exact hI
  | cons x xs ih =>
    exact ih _ (Inv_remove_rel st (get_correct_id st x) id hI)

theorem Inv_add_fold (l : List DriveId) (st : ProviderState)
    (id : DriveId) (hid : id ≠ rootSentinelId) (hI : Inv st) :
    Inv (l.foldl
      (fun s np => add_parent_child_relation s (get_correct_id s np) id)
      st) := by
  induction l generalizing st with
  | nil => exact hI
  | cons x xs ih =>
    exact ih _ (Inv_add_rel st (get_correct_id st x) id
      (get_correct_id_ne_root st x hI.alt_ne) hid hI)

theorem find_child_in_mem {st : ProviderState} {name : String}
    {l : List DriveId} {fe : FileData}
    (h : find_child_in st name l = some fe) :
    ∃ cid, aget st.entries cid = some fe := by
  induction l with
  | nil => simp [find_child_in] at h
  | cons cid rest ih =>
    unfold find_child_in at h
    split at h
    next child heqa =>
      split at h
      · exact ⟨cid, heqa.trans h⟩
      · exact ih h
    next heqa =>
      exact ih h

theorem find_first_child_mem {st : ProviderState} {name : String}
    {parent : DriveId} {fe : FileData}
    (h : find_first_child_by_name st name parent = some fe) :
    ∃ cid, aget st.entries cid = some fe :=
  find_child_in_mem h

theorem pfc_metadata_id (e : FileData) (c : DriveFileMetadata) :
    (process_file_change e c).metadata.id = e.metadata.id := by
  unfold process_file_change
  cases c.size <;> cases c.name <;> cases c.description <;>
    cases c.thumbnailLink <;> rfl

theorem pfc_is_local (e : FileData) (c : DriveFileMetadata) :
    (process_file_change e c).is_local = e.is_local := by
  unfold process_file_change
  cases c.size <;> cases c.name <;> cases c.description <;>
    cases c.thumbnailLink <;> rfl

/-- Invariant preservation for any state whose entries are an
`aset`-update of an existing entry (id preserved, `is_local` not reset)
and whose other invariant-relevant fields are unchanged. -/
theorem Inv_upd_entry_any (st st2 : ProviderState) (k : DriveId)
    (v old : FileData) (hI : Inv st)
    (hget : aget st.entries k = some old)
    (halt : st2.alt_root_id = st.alt_root_id)
    (hent : st2.entries = aset st.entries k v)
    (hp : st2.parents = st.parents) (hc : st2.children = st.children)
    (hd : st2.downloads = st.downloads)
    (hid : v.metadata.id = old.metadata.id)
    (hloc : v.is_local = false → old.is_local = false) : Inv st2 :=
  Inv_of_fields { st with entries := aset st.entries k v } st2 halt hent
    hp hc hd (Inv_upd_entry st k v old hI hget hid hloc)

theorem Inv_wcff (st : ProviderState) (file_id : DriveId)
    (request : ProviderWriteContentRequest) (now : Nat) (hI : Inv st) :
    Inv (write_content_from_file st file_id request now).1 := by
  unfold write_content_from_file
  dsimp only
  split
  next st1 e heq =>
    rw [← fst_of_eq heq]
    exact Inv_of_coreEq (coreEq_gaofh st request.fh) hI
  next st1 h heq =>
    have hI1 : Inv st1 := by
      rw [← fst_of_eq heq]
      exact Inv_of_coreEq (coreEq_gaofh st request.fh) hI
    split
    · exact hI1
    · split
      next heq2 =>
        exact Inv_of_fields st1 _ rfl rfl rfl rfl rfl hI1
      next entry heq2 =>
        exact Inv_upd_entry_any st1 _ file_id _ entry hI1 heq2 rfl rfl
          rfl rfl rfl rfl (fun hx => hx)

theorem coreEq_sufs (st : ProviderState) (file_id : DriveId)
    (fh : Option Nat) (size : Nat) :
    coreEq (set_underlying_file_size st file_id fh size).1 st := by
  unfold set_underlying_file_size
  dsimp only
  split
  · exact ⟨rfl, rfl, rfl, rfl, rfl⟩
  · split
    · exact coreEq_refl st
    · split
      · exact coreEq_refl st
      · exact ⟨rfl, rfl, rfl, rfl, rfl⟩

theorem Inv_set_attr (st : ProviderState)
    (request : ProviderSetAttrRequest) (hI : Inv st) :
    Inv (set_attr st request).1 := by
  unfold set_attr
  dsimp only
  set stW : ProviderState :=
    wait_for_running_drive_request_if_exists st
      (get_correct_id st request.file_id) with hstW
  have hIW : Inv stW := Inv_of_coreEq (coreEq_wait st _) hI
  split
  · exact hIW
  next entry heq1 =>
    cases hs : request.size with
    | none =>
      exact Inv_upd_entry_any stW _
        (get_correct_id st request.file_id) _ entry hIW heq1 rfl rfl rfl
        rfl rfl rfl (fun hx => hx)
    | some size =>
      cases hsu : set_underlying_file_size stW
        (get_correct_id st request.file_id) request.fh size with
      | mk stX r =>
        have hcX : coreEq stX stW := by
          rw [← fst_of_eq hsu]
          exact coreEq_sufs stW _ request.fh size
        have hIX : Inv stX := Inv_of_coreEq hcX hIW
        simp only [hsu]
        cases r with
        | error e => exact hIX
        | ok u =>
          have hgX : aget stX.entries
              (get_correct_id st request.file_id) = some entry := by
            rw [hcX.2.1]
            exact heq1
          exact Inv_upd_entry_any stX _
            (get_correct_id st request.file_id) _ entry hIX hgX rfl rfl
            rfl rfl rfl rfl (fun hx => hx)

theorem Inv_start_download (st : ProviderState) (raw : DriveId)
    (hI : Inv st)
    (hnl : is_local_of st (get_correct_id st raw) = false) :
    Inv (start_download_call st raw).1 := by
  unfold start_download_call
  dsimp only
  split
  · exact hI
  next entry heq =>
    have hI1 := Inv_upd_entry st (get_correct_id st raw)
      { entry with is_local := true } entry hI heq rfl
      (fun hx => by simp at hx)
    split
    · exact hI1
    next hrun =>
      have hcnt0 : countOcc st.downloads (get_correct_id st raw) = 0 :=
        hI.downloads_local _ hnl
      constructor
      · exact hI1.alt_ne
      · exact hI1.entries_ok
      · exact hI1.parents_ok
      · exact hI1.children_ok
      · exact hI1.graph_ok
      · intro id
        by_cases hid : get_correct_id st raw = id
        · subst hid
          simp [countOcc, hcnt0]
        · simp only [countOcc, if_neg hid]
          have := hI.downloads_ok id
          omega
      · intro id hil
        by_cases hid : id = get_correct_id st raw
        · subst hid
          simp [is_local_of, aget_aset] at hil
        · have hl0 : is_local_of st id = false := by
            simpa [is_local_of, aget_aset, hid] using hil
          have := hI.downloads_local id hl0
          simp only [countOcc, if_neg (fun hx => hid (Eq.symm hx))]
          omega

theorem Inv_open_file (st : ProviderState)
    (request : ProviderOpenFileRequest) (hI : Inv st) :
    Inv (open_file st request).1 := by
  unfold open_file
  dsimp only
  set stW : ProviderState :=
    wait_for_running_drive_request_if_exists st
      (get_correct_id st request.file_id) with hstW
  have hIW : Inv stW := Inv_of_coreEq (coreEq_wait st _) hI
  split
  · exact hIW
  next target heqp =>
    have hIdl : Inv (if ¬ is_local_of stW (get_correct_id st request.file_id)
        then start_download_call stW request.file_id
        else (stW, DlOutcome.ok)).1 := by
      by_cases hl : is_local_of stW (get_correct_id st request.file_id) = true
      · simp [hl]
        exact hIW
      · have hl0 : is_local_of stW (get_correct_id st request.file_id) = false := by
          simpa using hl
        simp [hl0]
        exact Inv_start_download stW request.file_id hIW hl0
    split
    next st2 e heq2 =>
      rw [← fst_of_eq heq2]
      exact hIdl
    next st2 e heq2 =>
      have hI2 : Inv st2 := by
        rw [← fst_of_eq heq2]
        exact hIdl
      exact Inv_of_coreEq (coreEq_create_fh st2 request.flags target false true) hI2
    next st2 heq2 =>
      have hI2 : Inv st2 := by
        rw [← fst_of_eq heq2]
        exact hIdl
      exact Inv_of_coreEq (coreEq_create_fh st2 request.flags target false true) hI2

theorem reu_metadata (e : FileData) (op : DriveId) (onm : String)
    (np : DriveId) (nn : String) (now : Nat) :
    (rename_entry_update e op onm np nn now).metadata = e.metadata := by
  unfold rename_entry_update
  dsimp only
  by_cases h1 : onm ≠ nn <;> by_cases h2 : op ≠ np <;> simp [h1, h2]

theorem reu_is_local (e : FileData) (op : DriveId) (onm : String)
    (np : DriveId) (nn : String) (now : Nat) :
    (rename_entry_update e op onm np nn now).is_local = e.is_local := by
  unfold rename_entry_update
  dsimp only
  by_cases h1 : onm ≠ nn <;> by_cases h2 : op ≠ np <;> simp [h1, h2]

theorem Inv_rename (st : ProviderState) (request : ProviderRenameRequest)
    (now : Nat) (hI : Inv st) : Inv (rename st request now).1 := by
  unfold rename rename_inner
  dsimp only
  split
  · exact hI
  next fe heqf =>
    split
    · exact hI
    next file_id heqid =>
      obtain ⟨cid, hcid⟩ := find_first_child_mem heqf
      have hok := hI.entries_ok (cid, fe) (mem_of_aget hcid)
      have hfid : file_id = cid := by
        have h2 : fe.metadata.id = some cid := hok.2
        unfold FileData.get_id at heqid
        rw [h2] at heqid
        exact (Option.some_inj.mp heqid).symm
      have hfidne : file_id ≠ rootSentinelId := by
        rw [hfid]
        exact hok.1
      set stW : ProviderState :=
        wait_for_running_drive_request_if_exists st file_id with hstW
      have hIW : Inv stW := Inv_of_coreEq (coreEq_wait st _) hI
      split
      · exact hIW
      split
      · exact hIW
      split
      · exact hIW
      next entry heqe =>
        set ru : FileData := rename_entry_update entry (get_correct_id st request.original_parent) request.original_name (get_correct_id st request.new_parent) request.new_name now with hru
        have hmid : ru.metadata.id = entry.metadata.id := by
          rw [hru, reu_metadata]
        have hml : ru.is_local = false → entry.is_local = false := by
          rw [hru, reu_is_local]
          exact fun hx => hx
        set st2 : ProviderState := { stW with entries := aset stW.entries file_id ru } with hst2
        have hI2 : Inv st2 :=
          Inv_upd_entry_any stW st2 file_id ru entry hIW heqe rfl rfl rfl
            rfl rfl hmid hml
        by_cases hd : get_correct_id st request.original_parent ≠
            get_correct_id st request.new_parent
        · rw [if_pos hd]
          have hI3 : Inv (add_parent_child_relation
              (remove_parent_child_relation st2
                (get_correct_id st request.original_parent) file_id)
              (get_correct_id st request.new_parent) file_id) :=
            Inv_add_rel _ _ _
              (get_correct_id_ne_root st request.new_parent hI.alt_ne)
              hfidne (Inv_remove_rel _ _ _ hI2)
          split
          · exact hI3
          · exact hI3
        · rw [if_neg hd]
          split
          · exact hI2
          · exact hI2

theorem Inv_process_change (st : ProviderState) (change : Change)
    (hI : Inv st) : Inv (process_change st change) := by
  unfold process_change
  dsimp only
  split
  next entry fc heq1 heq2 =>
    exact Inv_upd_entry st _ _ entry hI heq1 (pfc_metadata_id entry fc)
      (fun hx => by rw [pfc_is_local] at hx; exact hx)
  next h1 h2 =>
    exact hI

theorem Inv_prfm (st : ProviderState) (id : DriveId)
    (ps : Option (List DriveId)) (hI : Inv st) :
    Inv (process_remote_file_moved st id ps) := by
  unfold process_remote_file_moved
  dsimp only
  split
  · exact hI
  next changed_parents =>
    split
    · exact hI
    next entry heq =>
      split
      · exact hI
      next hne =>
        have hidne : id ≠ rootSentinelId :=
          (hI.entries_ok (id, entry) (mem_of_aget heq)).1
        cases hp : entry.metadata.parents with
        | none =>
          have hI2 := Inv_add_fold changed_parents st id hidne hI
          split
          next em heq3 =>
            exact Inv_upd_entry_any _ _ id _ em hI2 heq3 rfl rfl rfl rfl
              rfl rfl (fun hx => hx)
          next heq3 =>
            exact hI2
        | some existing =>
          have hI1 := Inv_remove_fold existing st id hI
          have hI2 := Inv_add_fold changed_parents _ id hidne hI1
          split
          next em heq3 =>
            exact Inv_upd_entry_any _ _ id _ em hI2 heq3 rfl rfl rfl rfl
              rfl rfl (fun hx => hx)
          next heq3 =>
            exact hI2

theorem Inv_write_content (st : ProviderState)
    (request : ProviderWriteContentRequest) (now : Nat) (hI : Inv st) :
    Inv (write_content st request now).1 := by
  unfold write_content
  dsimp only
  split
  next st2 e heq =>
    rw [← fst_of_eq heq]
    exact Inv_wcff _ _ request now (Inv_of_coreEq (coreEq_wait st _) hI)
  next st2 n heq =>
    rw [← fst_of_eq heq]
    exact Inv_wcff _ _ request now (Inv_of_coreEq (coreEq_wait st _) hI)

/-- Every single provider transition preserves the master invariant. -/
theorem Inv_step (st st2 : ProviderState) (hs : Step st st2)
    (hI : Inv st) : Inv st2 := by
  cases hs with
  | open_file request => exact Inv_open_file st request hI
  | release_file request =>
    exact Inv_of_coreEq (coreEq_release_file st request) hI
  | read_content request =>
    exact Inv_of_coreEq (coreEq_read_content st request) hI
  | write_content request now => exact Inv_write_content st request now hI
  | set_attr request => exact Inv_set_attr st request hI
  | rename request now => exact Inv_rename st request now hI
  | process_change change => exact Inv_process_change st change hI
  | process_remote_file_moved id ps => exact Inv_prfm st id ps hI

/-- Inserting a fresh entry (non-sentinel key, id-coherent, not local)
preserves the invariant provided no download was ever spawned for it. -/
theorem Inv_insert_entry (st : ProviderState) (k : DriveId) (d : FileData)
    (hI : Inv st) (hk : k ≠ rootSentinelId) (hid : d.metadata.id = some k)
    (_hil : d.is_local = false) (hdl : countOcc st.downloads k = 0) :
    Inv { st with entries := aset st.entries k d } := by
  constructor
  · exact hI.alt_ne
  · intro kv hkv
    rcases List.mem_cons.mp hkv with h | h
    · subst h
      exact ⟨hk, hid⟩
    · exact hI.entries_ok kv h
  · exact hI.parents_ok
  · exact hI.children_ok
  · exact hI.graph_ok
  · exact hI.downloads_ok
  · intro id hil2
    by_cases hkid : id = k
    · subst hkid
      exact hdl
    · have : is_local_of st id = false := by
        simpa [is_local_of, aget_aset, hkid] using hil2
      exact hI.downloads_local id this

theorem downloads_add_rel (st : ProviderState) (p c : DriveId) :
    (add_parent_child_relation st p c).downloads = st.downloads := rfl

theorem downloads_add_fold (l : List DriveId) (st : ProviderState)
    (id : DriveId) :
    (l.foldl (fun s p => add_parent_child_relation s p id) st).downloads =
      st.downloads := by
  induction l generalizing st with
  | nil => rfl
  | cons x xs ih => rw [List.foldl_cons, ih, downloads_add_rel]

theorem downloads_acpr (st : ProviderState) (entry : DriveFileMetadata)
    (id : DriveId) :
    (add_child_parent_relations st entry id).downloads = st.downloads := by
  unfold add_child_parent_relations
  split
  · exact downloads_add_fold _ st id
  · rfl

theorem Inv_acpr_fold (l : List DriveId) (st : ProviderState)
    (id : DriveId) (hid : id ≠ rootSentinelId)
    (hl : rootSentinelId ∉ l) (hI : Inv st) :
    Inv (l.foldl (fun s p => add_parent_child_relation s p id) st) := by
  induction l generalizing st with
  | nil => exact hI
  | cons x xs ih =>
    rw [List.foldl_cons]
    have hx : x ≠ rootSentinelId := by
      intro hc
      apply hl
      rw [hc]
      exact List.mem_cons_self _ _
    have hxs : rootSentinelId ∉ xs := fun hc =>
      hl (List.mem_cons_of_mem _ hc)
    exact ih _ hxs (Inv_add_rel st x id hx hid hI)

/-- Ingesting an honest listing entry preserves the invariant (with no
download spawned yet for its id). -/
theorem Inv_ingest (st : ProviderState) (now : Nat)
    (entry : DriveFileMetadata) (hm : HonestMeta entry) (hI : Inv st)
    (hdl : st.downloads = []) :
    Inv (add_drive_entry_to_entries st now entry) := by
  unfold add_drive_entry_to_entries
  dsimp only
  split
  · exact hI
  next id heqid =>
    split
    · exact hI
    next attr heqa =>
      have hidne : id ≠ rootSentinelId := hm.1 id heqid
      have hI1 : Inv (add_child_parent_relations st entry id) := by
        unfold add_child_parent_relations
        split
        next ps heqp =>
          exact Inv_acpr_fold ps st id hidne (hm.2 ps heqp) hI
        next heqp =>
          exact Inv_add_rel st _ id
            (get_correct_id_ne_root st rootSentinelId hI.alt_ne) hidne hI
      apply Inv_insert_entry _ id _ hI1 hidne heqid rfl
      rw [downloads_acpr, hdl]
      rfl

theorem downloads_ingest (st : ProviderState) (now : Nat)
    (entry : DriveFileMetadata) :
    (add_drive_entry_to_entries st now entry).downloads = st.downloads := by
  unfold add_drive_entry_to_entries
  dsimp only
  split
  · rfl
  next id heqid =>
    split
    · rfl
    next attr heqa =>
      exact downloads_acpr st entry id

/-- Folding an honest listing through ingest preserves the invariant
while no download has been spawned. -/
theorem Inv_ingest_fold (l : List DriveFileMetadata) (st : ProviderState)
    (now : Nat) (hl : ∀ m ∈ l, HonestMeta m) (hI : Inv st)
    (hdl : st.downloads = []) :
    Inv (l.foldl (fun s e => add_drive_entry_to_entries s now e) st) := by
  induction l generalizing st with
  | nil => exact hI
  | cons m ms ih =>
    rw [List.foldl_cons]
    exact ih _ (fun x hx => hl x (List.mem_cons_of_mem _ hx))
      (Inv_ingest st now m (hl m (List.mem_cons_self _ _)) hI hdl)
      (by rw [downloads_ingest]; exact hdl)

/-- The state after a successful startup satisfies the invariant. -/
theorem Inv_boot (now : Nat) (rootMeta : DriveFileMetadata)
    (listing : List DriveFileMetadata) (st2 : ProviderState)
    (hinit : init_entries ProviderState.new now rootMeta listing =
      Except.ok st2)
    (hroot : HonestMeta rootMeta) (hlist : ∀ m ∈ listing, HonestMeta m) :
    Inv st2 := by
  unfold init_entries at hinit
  cases har : add_root_entry ProviderState.new now rootMeta with
  | error e =>
    rw [har] at hinit
    exact absurd hinit (by simp)
  | ok st1 =>
    rw [har] at hinit
    simp only [Except.ok.injEq] at hinit
    subst hinit
    unfold add_root_entry at har
    split at har
    · exact absurd har (by simp)
    next attr heqa =>
      split at har
      · exact absurd har (by simp)
      next rid heqid =>
        simp only [Except.ok.injEq] at har
        subst har
        have hridne : rid ≠ rootSentinelId := hroot.1 rid heqid
        have hbase : Inv { ProviderState.new with
            alt_root_id := rid
            entries := aset ProviderState.new.entries rid
              { metadata := rootMeta
                changed_metadata := {}
                perma := false
                attr := attr
                is_local := false } } := by
          constructor
          · exact hridne
          · intro kv hkv
            rcases List.mem_cons.mp hkv with h | h
            · subst h
              exact ⟨hridne, heqid⟩
            · simp [ProviderState.new] at h
          · intro kv hkv
            simp [ProviderState.new] at hkv
          · intro kv hkv
            simp [ProviderState.new] at hkv
          · intro p c
            simp [children_of, parents_of, ProviderState.new, aget,
              countOcc]
          · intro id
            simp [ProviderState.new, countOcc]
          · intro id hil
            simp [ProviderState.new, countOcc]
        exact Inv_ingest_fold listing _ now hlist hbase rfl

/-- Every reachable provider state satisfies the master invariant. -/
theorem Inv_of_Reach (st : ProviderState) (h : Reach st) : Inv st := by
  induction h with
  | boot now rootMeta listing st2 hinit hroot hlist =>
    exact Inv_boot now rootMeta listing st2 hinit hroot hlist
  | step st st2 h hs ih => exact Inv_step st st2 hs ih

theorem is_local_of_aset (st : ProviderState) (k : DriveId) (v : FileData)
    (id : DriveId) :
    is_local_of { st with entries := aset st.entries k v } id =
      if id = k then v.is_local else is_local_of st id := by
  by_cases h : id = k <;> simp [is_local_of, aget_aset, h]

theorem is_local_mono_upd (st : ProviderState) (k : DriveId)
    (v old : FileData) (id : DriveId)
    (hget : aget st.entries k = some old)
    (hv : old.is_local = true → v.is_local = true)
    (h : is_local_of st id = true) :
    is_local_of { st with entries := aset st.entries k v } id = true := by
  rw [is_local_of_aset]
  by_cases hk : id = k
  · rw [if_pos hk]
    apply hv
    subst hk
    rw [is_local_of, hget] at h
    simpa using h
  · rw [if_neg hk]
    exact h

theorem mono_wcff (st : ProviderState) (file_id : DriveId)
    (request : ProviderWriteContentRequest) (now : Nat) (id : DriveId)
    (h : is_local_of st id = true) :
    is_local_of (write_content_from_file st file_id request now).1 id =
      true := by
  unfold write_content_from_file
  dsimp only
  split
  next st1 e heq =>
    rw [← fst_of_eq heq, is_local_of_coreEq (coreEq_gaofh st request.fh)]
    exact h
  next st1 hh heq =>
    have h1 : is_local_of st1 id = true := by
      rw [← fst_of_eq heq, is_local_of_coreEq (coreEq_gaofh st request.fh)]
      exact h
    split
    · exact h1
    · split
      next heq2 =>
        exact h1
      next entry heq2 =>
        exact is_local_mono_upd _ file_id _ entry id heq2
          (fun hx => hx) h1

theorem mono_write_content (st : ProviderState)
    (request : ProviderWriteContentRequest) (now : Nat) (id : DriveId)
    (h : is_local_of st id = true) :
    is_local_of (write_content st request now).1 id = true := by
  unfold write_content
  dsimp only
  have hW : is_local_of (wait_for_running_drive_request_if_exists st
      (get_correct_id st request.file_id)) id = true := by
    rw [is_local_of_coreEq (coreEq_wait st _)]
    exact h
  split
  next st2 e heq =>
    rw [← fst_of_eq heq]
    exact mono_wcff _ _ request now id hW
  next st2 n heq =>
    rw [← fst_of_eq heq]
    exact mono_wcff _ _ request now id hW

theorem mono_set_attr (st : ProviderState)
    (request : ProviderSetAttrRequest) (id : DriveId)
    (h : is_local_of st id = true) :
    is_local_of (set_attr st request).1 id = true := by
  unfold set_attr
  dsimp only
  set stW : ProviderState :=
    wait_for_running_drive_request_if_exists st
      (get_correct_id st request.file_id) with hstW
  have hW : is_local_of stW id = true := by
    rw [is_local_of_coreEq (coreEq_wait st _)]
    exact h
  split
  · exact hW
  next entry heq1 =>
    cases hs : request.size with
    | none =>
      exact is_local_mono_upd stW _ _ entry id heq1 (fun hx => hx) hW
    | some size =>
      cases hsu : set_underlying_file_size stW
        (get_correct_id st request.file_id) request.fh size with
      | mk stX r =>
        have hcX : coreEq stX stW := by
          rw [← fst_of_eq hsu]
          exact coreEq_sufs stW _ request.fh size
        have hX : is_local_of stX id = true := by
          rw [is_local_of_coreEq hcX]
          exact hW
        simp only [hsu]
        cases r with
        | error e => exact hX
        | ok u =>
          have hgX : aget stX.entries
              (get_correct_id st request.file_id) = some entry := by
            rw [hcX.2.1]
            exact heq1
          exact is_local_mono_upd stX _ _ entry id hgX (fun hx => hx) hX

theorem mono_start_download (st : ProviderState) (raw : DriveId)
    (id : DriveId) (h : is_local_of st id = true) :
    is_local_of (start_download_call st raw).1 id = true := by
  unfold start_download_call
  dsimp only
  split
  · exact h
  next entry heq =>
    by_cases hk : id = get_correct_id st raw
    · subst hk
      split <;> simp [is_local_of, aget_aset]
    · split <;> simpa [is_local_of, aget_aset, hk] using h

theorem mono_open_file (st : ProviderState)
    (request : ProviderOpenFileRequest) (id : DriveId)
    (h : is_local_of st id = true) :
    is_local_of (open_file st request).1 id = true := by
  unfold open_file
  dsimp only
  set stW : ProviderState :=
    wait_for_running_drive_request_if_exists st
      (get_correct_id st request.file_id) with hstW
  have hW : is_local_of stW id = true := by
    rw [is_local_of_coreEq (coreEq_wait st _)]
    exact h
  split
  · exact hW
  next target heqp =>
    have hdl : is_local_of (if ¬ is_local_of stW
        (get_correct_id st request.file_id) = true
        then start_download_call stW request.file_id
        else (stW, DlOutcome.ok)).1 id = true := by
      by_cases hl : is_local_of stW (get_correct_id st request.file_id) = true
      · simp [hl]
        exact hW
      · have hl0 : is_local_of stW (get_correct_id st request.file_id) = false := by
          simpa using hl
        simp [hl0]
        exact mono_start_download stW request.file_id id hW
    split
    next st2 e heq2 =>
      have h2 : is_local_of st2 id = true := by
        rw [← fst_of_eq heq2]
        exact hdl
      exact h2
    next st2 e heq2 =>
      have h2 : is_local_of st2 id = true := by
        rw [← fst_of_eq heq2]
        exact hdl
      rw [is_local_of_coreEq (coreEq_create_fh st2 request.flags target false true)]
      exact h2
    next st2 heq2 =>
      have h2 : is_local_of st2 id = true := by
        rw [← fst_of_eq heq2]
        exact hdl
      rw [is_local_of_coreEq (coreEq_create_fh st2 request.flags target false true)]
      exact h2

theorem mono_rename (st : ProviderState) (request : ProviderRenameRequest)
    (now : Nat) (id : DriveId) (h : is_local_of st id = true) :
    is_local_of (rename st request now).1 id = true := by
  unfold rename rename_inner
  dsimp only
  split
  · exact h
  next fe heqf =>
    split
    · exact h
    next file_id heqid =>
      have hW : is_local_of (wait_for_running_drive_request_if_exists st
          file_id) id = true := by
        rw [is_local_of_coreEq (coreEq_wait st file_id)]
        exact h
      split
      · exact hW
      split
      · exact hW
      split
      · exact hW
      next entry heqe =>
        have h2 := is_local_mono_upd
          (wait_for_running_drive_request_if_exists st file_id) file_id
          (rename_entry_update entry
            (get_correct_id st request.original_parent)
            request.original_name (get_correct_id st request.new_parent)
            request.new_name now)
          entry id heqe
          (fun hx => by rw [reu_is_local]; exact hx) hW
        by_cases hd : get_correct_id st request.original_parent ≠
            get_correct_id st request.new_parent
        · rw [if_pos hd]
          split
          · exact h2
          · exact h2
        · rw [if_neg hd]
          split
          · exact h2
          · exact h2

theorem mono_process_change (st : ProviderState) (change : Change)
    (id : DriveId) (h : is_local_of st id = true) :
    is_local_of (process_change st change) id = true := by
  unfold process_change
  dsimp only
  split
  next entry fc heq1 heq2 =>
    exact is_local_mono_upd st _ _ entry id heq1
      (fun hx => by rw [pfc_is_local]; exact hx) h
  next h1 h2 =>
    exact h

theorem entries_addgc_fold (l : List DriveId) (st : ProviderState)
    (id : DriveId) :
    (l.foldl (fun s np => add_parent_child_relation s
      (get_correct_id s np) id) st).entries = st.entries := by
  induction l generalizing st with
  | nil => rfl
  | cons x xs ih =>
    rw [List.foldl_cons, ih]
    rfl

theorem entries_removegc_fold (l : List DriveId) (st : ProviderState)
    (id : DriveId) :
    (l.foldl (fun s e => remove_parent_child_relation s
      (get_correct_id s e) id) st).entries = st.entries := by
  induction l generalizing st with
  | nil => rfl
  | cons x xs ih =>
    rw [List.foldl_cons, ih]
    rfl

theorem mono_prfm (st : ProviderState) (pid : DriveId)
    (ps : Option (List DriveId)) (id : DriveId)
    (h : is_local_of st id = true) :
    is_local_of (process_remote_file_moved st pid ps) id = true := by
  unfold process_remote_file_moved
  dsimp only
  split
  · exact h
  next changed_parents =>
    split
    · exact h
    next entry heq =>
      split
      · exact h
      next hne =>
        cases hp : entry.metadata.parents with
        | none =>
          have h2 : is_local_of (changed_parents.foldl
              (fun s np => add_parent_child_relation s
                (get_correct_id s np) pid) st) id = true := by
            rw [is_local_of, entries_addgc_fold]
            exact h
          split
          next em heq3 =>
            exact is_local_mono_upd _ pid _ em id heq3 (fun hx => hx) h2
          next heq3 =>
            exact h2
        | some existing =>
          have h1 : is_local_of (existing.foldl
              (fun s e => remove_parent_child_relation s
                (get_correct_id s e) pid) st) id = true := by
            rw [is_local_of, entries_removegc_fold]
            exact h
          have h2 : is_local_of (changed_parents.foldl
              (fun s np => add_parent_child_relation s
                (get_correct_id s np) pid)
              (existing.foldl
                (fun s e => remove_parent_child_relation s
                  (get_correct_id s e) pid) st)) id = true := by
            rw [is_local_of, entries_addgc_fold, entries_removegc_fold]
            exact h
          split
          next em heq3 =>
            exact is_local_mono_upd _ pid _ em id heq3 (fun hx => hx) h2
          next heq3 =>
            exact h2

/-- `is_local` is monotone along every provider transition: once an
entry has been marked local, no later operation resets the flag. -/
theorem is_local_mono_of_step (st st2 : ProviderState) (hs : Step st st2)
    (id : DriveId) (h : is_local_of st id = true) :
    is_local_of st2 id = true := by
  cases hs with
  | open_file request => exact mono_open_file st request id h
  | release_file request =>
    rw [is_local_of_coreEq (coreEq_release_file st request)]
    exact h
  | read_content request =>
    rw [is_local_of_coreEq (coreEq_read_content st request)]
    exact h
  | write_content request now => exact mono_write_content st request now id h
  | set_attr request => exact mono_set_attr st request id h
  | rename request now => exact mono_rename st request now id h
  | process_change change => exact mono_process_change st change id h
  | process_remote_file_moved pid ps => exact mono_prfm st pid ps id h

/-! Concrete fixtures: a remote with root `R`, a plain file `F1` named
`Hello.TXT`, folders `A` and `B`, and a file `f` under `A`. -/

/-- Root metadata as reported by the remote. -/
def rootMetaEx : DriveFileMetadata :=
  { id := some "R"
    name := some "MyDrive"
    mimeType := some "application/vnd.google-apps.folder" }

/-- The remote listing used by the fixtures. -/
def listingEx : List DriveFileMetadata :=
  [{ id := some "F1", name := some "Hello.TXT",
     mimeType := some "text/plain", size := some 12 },
   { id := some "A", name := some "A",
     mimeType := some "application/vnd.google-apps.folder" },
   { id := some "B", name := some "B",
     mimeType := some "application/vnd.google-apps.folder" },
   { id := some "f", name := some "f", parents := some ["A"],
     mimeType := some "text/plain" }]

/-- The provider state after startup on the fixture remote. -/
def stBoot : ProviderState :=
  match init_entries ProviderState.new 0 rootMetaEx listingEx with
  | Except.ok s => s
  | Except.error _ => ProviderState.new

theorem stBoot_init :
    init_entries ProviderState.new 0 rootMetaEx listingEx =
      Except.ok stBoot := by
  rfl

theorem honest_rootMetaEx : HonestMeta rootMetaEx := by
  constructor
  · intro i hi
    simp [rootMetaEx] at hi
    subst hi
    decide
  · intro ps hps
    simp [rootMetaEx] at hps

theorem honest_listingEx : ∀ m ∈ listingEx, HonestMeta m := by
  intro m hm
  simp [listingEx] at hm
  rcases hm with rfl | rfl | rfl | rfl <;> constructor <;>
    intro x hx <;> simp at hx <;> subst hx <;> decide

theorem reach_stBoot : Reach stBoot :=
  Reach.boot 0 rootMetaEx listingEx stBoot stBoot_init honest_rootMetaEx
    honest_listingEx

/-- An open request for `F1` with read-write access. -/
def reqOpenF1 : ProviderOpenFileRequest :=
  { file_id := "F1", flags := { o_rdwr := true } }

/-- The fixture state after opening `F1` (download spawned,
`is_local` now true). -/
def stOpened : ProviderState := (open_file stBoot reqOpenF1).1

theorem reach_stOpened : Reach stOpened :=
  Reach.step stBoot stOpened reach_stBoot (Step.open_file stBoot reqOpenF1)

/-- A read request against the opened handle. -/
def reqReadF1 : ProviderReadContentRequest :=
  { file_id := "F1", offset := 0, size := 4, fh := 111 }

/-- Hand-built state for the write divergence: entry `F1` has
`attr.size = 10`, a read-write handle 7 on its cache file, and the cache
file holds ten bytes. -/
def stWrite : ProviderState :=
  { alt_root_id := "R"
    entries := [("F1",
      { metadata := { id := some "F1", name := some "Hello.TXT" }
        changed_metadata := {}
        perma := false
        attr := { size := 10 }
        is_local := true })]
    parents := []
    children := []
    file_handles := [(7,
      { flags := { o_rdwr := true }
        file := none
        path := "cache/F1"
        creating := false
        marked_for_open := true
        has_content_changed := false })]
    next_fh := 8
    running_requests := []
    files := [("cache/F1", [9, 9, 9, 9, 9, 9, 9, 9, 9, 9])]
    downloads := [] }

/-- Write 5 bytes at offset 0 through handle 7. -/
def reqWriteF1 : ProviderWriteContentRequest :=
  { file_id := "F1", offset := 0, fh := 7, data := [1, 2, 3, 4, 5] }

/-- Hand-built state for the read divergence: the cache file holds two
bytes and handle 7 is read-only. -/
def stRead : ProviderState :=
  { alt_root_id := "R"
    entries := [("F1",
      { metadata := { id := some "F1", name := some "Hello.TXT" }
        changed_metadata := {}
        perma := false
        attr := { size := 2 }
        is_local := true })]
    parents := []
    children := []
    file_handles := [(7,
      { flags := { o_rdonly := true }
        file := none
        path := "cache/F1"
        creating := false
        marked_for_open := true
        has_content_changed := false })]
    next_fh := 8
    running_requests := []
    files := [("cache/F1", [97, 98])]
    downloads := [] }

/-- Read 4 bytes at offset 5 (past end of the 2-byte file). -/
def reqReadPastEnd : ProviderReadContentRequest :=
  { file_id := "F1", offset := 5, size := 4, fh := 7 }

/-- C1: the claim states that a successful Write reporting n bytes at
offset o marks the handle dirty and updates `attr.size` to the
monotonic max of the current size and `o + n`, with mtime/atime set to
the write time.  The code instead executes `attr.size += n`: writing 5
bytes at offset 0 over a 10-byte file succeeds, marks the handle dirty
and stamps the times (those parts follow the claim), but records
`attr.size = 15` although the claimed value — and the real length of
the underlying cache file — is `max 10 (0 + 5) = 10`. -/
theorem c1_write_size_increment_not_max :
    (write_content stWrite reqWriteF1 777).2 = Except.ok 5 ∧
    ((aget (write_content stWrite reqWriteF1 777).1.entries "F1").map
      (fun e => e.attr.size)) = some 15 ∧
    max 10 (0 + 5) = 10 ∧
    ((aget (write_content stWrite reqWriteF1 777).1.files
      "cache/F1").getD []).length = 10 ∧
    ((aget (write_content stWrite reqWriteF1 777).1.file_handles 7).map
      (fun hh => hh.has_content_changed)) = some true ∧
    ((aget (write_content stWrite reqWriteF1 777).1.entries "F1").map
      (fun e => e.attr.mtime)) = some 777 ∧
    ((aget (write_content stWrite reqWriteF1 777).1.entries "F1").map
      (fun e => e.attr.atime)) = some 777 := by
  decide

/-- C2: the claim states that Read returns at most the requested number
of bytes and exactly the bytes available at the offset, with 0 bytes
returned at offset ≥ size.  The code allocates a zero-filled buffer of
the requested size and returns the whole buffer regardless of how much
the read call produced: reading 4 bytes at offset 5 of a 2-byte file
succeeds with 4 NUL bytes instead of 0 bytes. -/
theorem c2_read_returns_padded_buffer :
    ((aget stRead.files "cache/F1").getD []).length = 2 ∧
    reqReadPastEnd.offset = 5 ∧ reqReadPastEnd.size = 4 ∧
    (read_content stRead reqReadPastEnd).2 = Except.ok [0, 0, 0, 0] := by
  decide

/-- C3: the claim states that a Rename whose `new_parent` is unknown
returns ENOENT and one whose `new_parent` exists with a clashing
sibling name returns EADDRINUSE.  The `check_id_exists` condition in
`rename_inner` is inverted (it errors when the entry table DOES contain
`new_parent`): renaming `f` from folder `A` into the existing folder
`B` fails with ENOENT "Folder does not exist", while renaming it into
the unknown id `X` passes the check and succeeds. -/
theorem c3_rename_parent_check_inverted :
    check_id_exists stBoot "B" = true ∧
    (rename_inner stBoot "A" "f" "B" "g" 5).2 =
      Except.error ("Folder does not exist", ENOENT) ∧
    check_id_exists stBoot "X" = false ∧
    (rename_inner stBoot "A" "f" "X" "g" 5).2 = Except.ok () := by
  decide

/-- C4: in every state reachable by provider operations (startup entry
installation, rename, remote-move integration and the other request
handlers), the `parents` and `children` maps are mutually consistent:
`c` is in `children[p]` iff `p` is in `parents[c]`. -/
theorem c4_parents_children_consistent (st : ProviderState)
    (h : Reach st) (p c : DriveId) :
    c ∈ children_of st p ↔ p ∈ parents_of st c := by
  have hg := (Inv_of_Reach st h).graph_ok p c
  constructor
  · intro hm
    rw [← countOcc_pos_iff] at hm ⊢
    rw [← hg]
    exact hm
  · intro hm
    rw [← countOcc_pos_iff] at hm ⊢
    rw [hg]
    exact hm

/-- Witness for C4 at a concrete reachable state. -/
theorem c4_witness :
    "F1" ∈ children_of stBoot "R" ↔ "R" ∈ parents_of stBoot "F1" :=
  c4_parents_children_consistent stBoot reach_stBoot "R" "F1"

/-- C5: every request entry point resolves ids through
`get_correct_id`, whose result is never the `"root"` sentinel in a
reachable state, and in every reachable state the entries, parents and
children maps contain no `"root"` key or value.  (Reachability assumes
the remote reports real object ids, never the literal `"root"` alias,
for the root metadata and the listing — see `HonestMeta`.) -/
theorem c5_no_root_sentinel (st : ProviderState) (h : Reach st) :
    (∀ id, get_correct_id st id ≠ rootSentinelId) ∧
    (∀ kv ∈ st.entries, kv.1 ≠ rootSentinelId) ∧
    (∀ kv ∈ st.parents,
      kv.1 ≠ rootSentinelId ∧ rootSentinelId ∉ kv.2) ∧
    (∀ kv ∈ st.children,
      kv.1 ≠ rootSentinelId ∧ rootSentinelId ∉ kv.2) := by
  have hI := Inv_of_Reach st h
  exact ⟨fun id => get_correct_id_ne_root st id hI.alt_ne,
    fun kv hkv => (hI.entries_ok kv hkv).1, hI.parents_ok,
    hI.children_ok⟩

/-- Witness for C5 at a concrete reachable state. -/
theorem c5_witness :
    get_correct_id stBoot rootSentinelId ≠ rootSentinelId ∧
    (∀ kv ∈ stBoot.entries, kv.1 ≠ rootSentinelId) :=
  ⟨(c5_no_root_sentinel stBoot reach_stBoot).1 rootSentinelId,
   (c5_no_root_sentinel stBoot reach_stBoot).2.1⟩

theorem eq_ignore_eq (n n2 : String) (h : eq_ignore_ascii_case n n2 = true)
    (m : String) :
    eq_ignore_ascii_case m n = eq_ignore_ascii_case m n2 := by
  unfold eq_ignore_ascii_case at h ⊢
  rw [eq_of_beq h]

theorem find_child_in_case (st : ProviderState) (n n2 : String)
    (h : eq_ignore_ascii_case n n2 = true) (l : List DriveId) :
    find_child_in st n l = find_child_in st n2 l := by
  induction l with
  | nil => rfl
  | cons cid rest ih =>
    unfold find_child_in
    cases hg : aget st.entries cid
    · simp only [hg]
      exact ih
    · rename_i child
      simp only [hg]
      rw [eq_ignore_eq n n2 h (child.metadata.name.getD noNameSentinel)]
      by_cases hc : eq_ignore_ascii_case
          (child.metadata.name.getD noNameSentinel) n2 = true
      · rw [if_pos hc, if_pos hc]
      · rw [if_neg hc, if_neg hc]
        exact ih

theorem ffcbn_case (st : ProviderState) (n n2 : String)
    (h : eq_ignore_ascii_case n n2 = true) (parent : DriveId) :
    find_first_child_by_name st n parent =
      find_first_child_by_name st n2 parent := by
  unfold find_first_child_by_name
  exact find_child_in_case st n n2 h _

/-- C6: Lookup is ASCII case-insensitive — for any two names that agree
up to ASCII case, `lookup` under any parent returns the same result. -/
theorem c6_lookup_case_insensitive (st : ProviderState) (p : DriveId)
    (n n2 : String) (h : eq_ignore_ascii_case n n2 = true) :
    lookup st p n = lookup st p n2 := by
  unfold lookup
  dsimp only
  rw [ffcbn_case st n n2 h (get_correct_id st p)]

/-- Witness for C6: `hello.txt` and `HELLO.TXT` resolve identically
under the (sentinel-aliased) root of the fixture state. -/
theorem c6_witness :
    eq_ignore_ascii_case "hello.txt" "HELLO.TXT" = true ∧
    lookup stBoot "root" "hello.txt" = lookup stBoot "root" "HELLO.TXT" :=
  ⟨by decide, c6_lookup_case_insensitive stBoot "root" "hello.txt"
    "HELLO.TXT" (by decide)⟩

/-- The entry located for `f` under `A` in the fixture state. -/
def fEntry : FileData :=
  match find_first_child_by_name stBoot "f" "A" with
  | some e => e
  | none =>
    { metadata := {}
      changed_metadata := {}
      perma := false
      attr := {}
      is_local := false }

/-- Counterexample to C7 as stated: the identity rename
`rename(A, f, A, f)` on the fixture state does not succeed — it fails
with ENOENT (the inverted `check_id_exists` fires because `A` is a
known entry). -/
theorem c7_counterexample :
    (rename_inner stBoot "A" "f" "A" "f" 5).2 =
      Except.error ("Folder does not exist", ENOENT) := by
  decide

/-- C7 (amended): for every entry located by `(p, n)` whose id is
present, an identity rename `rename(p, n, p, n)` with `p` in the entry
table does not succeed: it returns the ENOENT error of the inverted
folder-existence check, and it leaves the entry table (hence the
entry's name and staged metadata) and the parent/child graph unchanged
— only the in-flight request for the file may be awaited and cleared. -/
theorem c7_rename_identity_errors (st : ProviderState) (p : DriveId)
    (n : String) (now : Nat) (fe : FileData) (i : DriveId)
    (hfind : find_first_child_by_name st n p = some fe)
    (hid : fe.get_id = some i)
    (hp : check_id_exists st p = true) :
    (rename_inner st p n p n now).2 =
      Except.error ("Folder does not exist", ENOENT) ∧
    (rename_inner st p n p n now).1.entries = st.entries ∧
    (rename_inner st p n p n now).1.parents = st.parents ∧
    (rename_inner st p n p n now).1.children = st.children := by
  unfold rename_inner
  rw [hfind]
  dsimp only
  rw [hid]
  dsimp only
  have hp2 : check_id_exists
      (wait_for_running_drive_request_if_exists st i) p = true := hp
  rw [if_pos hp2]
  exact ⟨rfl, rfl, rfl, rfl⟩

/-- Witness for the amended C7 at the fixture state. -/
theorem c7_witness :
    (rename_inner stBoot "A" "f" "A" "f" 7).2 =
      Except.error ("Folder does not exist", ENOENT) ∧
    (rename_inner stBoot "A" "f" "A" "f" 7).1.entries = stBoot.entries ∧
    (rename_inner stBoot "A" "f" "A" "f" 7).1.parents = stBoot.parents ∧
    (rename_inner stBoot "A" "f" "A" "f" 7).1.children =
      stBoot.children :=
  c7_rename_identity_errors stBoot "A" "f" 7 fEntry "f" (by decide)
    (by decide) (by decide)

/-- The seven google-apps mime-types the claim (and the spec table)
enumerate as dropped at ingest; stated from the claim's words for
comparison with the source's `google_app_mime_types`. -/
def claimDroppedMimeTypes : List String :=
  ["application/vnd.google-apps.document",
   "application/vnd.google-apps.spreadsheet",
   "application/vnd.google-apps.drawing",
   "application/vnd.google-apps.form",
   "application/vnd.google-apps.presentation",
   "application/vnd.google-apps.drive-sdk",
   "application/vnd.google-apps.script"]

/-- A listing object bearing the literal `application/vnd.google-apps.*`
mime-type string. -/
def wildcardMeta : DriveFileMetadata :=
  { id := some "G1", mimeType := some "application/vnd.google-apps.*" }

/-- A listing object with an ordinary mime-type. -/
def plainMeta : DriveFileMetadata :=
  { id := some "G2", mimeType := some "text/plain" }

/-- Counterexample to C8 as stated: the literal string
`application/vnd.google-apps.*` is not one of the seven enumerated
types and not the folder type, so the claim says it yields a
RegularFile entry; the source's match has an extra arm for this exact
literal, so conversion fails and ingest drops the object. -/
theorem c8_counterexample :
    "application/vnd.google-apps.*" ∉ claimDroppedMimeTypes ∧
    "application/vnd.google-apps.*" ≠
      "application/vnd.google-apps.folder" ∧
    convert_mime_type_to_file_type "application/vnd.google-apps.*" =
      Except.error
        "google app files are not supported (docs, sheets, etc)" ∧
    add_drive_entry_to_entries stBoot 0 wildcardMeta = stBoot := by
  decide

/-- C8 (amended): at ingest, an object whose mime-type is in the
source's dropped list — the seven enumerated google-apps types plus the
literal `application/vnd.google-apps.*` — creates no entry;
`application/vnd.google-apps.folder` yields kind Directory; every other
mime-type yields kind RegularFile. -/
theorem c8_ingest_mime_policy (st : ProviderState)
    (m : DriveFileMetadata) (i : DriveId) (now : Nat)
    (hid : m.id = some i) :
    ((m.mimeType).getD "NONE" ∈ google_app_mime_types →
      add_drive_entry_to_entries st now m = st) ∧
    ((m.mimeType).getD "NONE" = "application/vnd.google-apps.folder" →
      ((aget (add_drive_entry_to_entries st now m).entries i).map
        (fun d => d.attr.kind)) = some FileType.Directory) ∧
    ((m.mimeType).getD "NONE" ∉ google_app_mime_types →
      (m.mimeType).getD "NONE" ≠ "application/vnd.google-apps.folder" →
      ((aget (add_drive_entry_to_entries st now m).entries i).map
        (fun d => d.attr.kind)) = some FileType.RegularFile) := by
  refine ⟨?_, ?_, ?_⟩
  · intro hmem
    have hconv : convert_mime_type_to_file_type ((m.mimeType).getD "NONE") =
        Except.error
          "google app files are not supported (docs, sheets, etc)" := by
      unfold convert_mime_type_to_file_type
      rw [if_neg, if_pos hmem]
      intro hf
      rw [hf] at hmem
      revert hmem
      decide
    unfold add_drive_entry_to_entries
    rw [hid]
    dsimp only
    unfold create_file_attr_from_metadata
    rw [hconv]
  · intro hf
    have hconv : convert_mime_type_to_file_type ((m.mimeType).getD "NONE") =
        Except.ok FileType.Directory := by
      unfold convert_mime_type_to_file_type
      rw [if_pos hf]
    unfold add_drive_entry_to_entries
    rw [hid]
    dsimp only
    unfold create_file_attr_from_metadata
    rw [hconv]
    dsimp only
    rw [aget_aset]
    simp
  · intro hmem hf
    have hconv : convert_mime_type_to_file_type ((m.mimeType).getD "NONE") =
        Except.ok FileType.RegularFile := by
      unfold convert_mime_type_to_file_type
      rw [if_neg hf, if_neg hmem]
    unfold add_drive_entry_to_entries
    rw [hid]
    dsimp only
    unfold create_file_attr_from_metadata
    rw [hconv]
    dsimp only
    rw [aget_aset]
    simp

/-- Witness for the amended C8: a `text/plain` object is ingested as a
RegularFile entry. -/
theorem c8_witness :
    ((aget (add_drive_entry_to_entries stBoot 0 plainMeta).entries
      "G2").map (fun d => d.attr.kind)) = some FileType.RegularFile :=
  (c8_ingest_mime_policy stBoot plainMeta "G2" 0 rfl).2.2 (by decide)
    (by decide)

/-- Counterexample to C9 as stated: `Z9` has no entry in the fixture
state's entry table, yet `read_dir` replies with a successful empty
listing instead of the claimed ENOENT errno. -/
theorem c9_counterexample :
    aget stBoot.entries "Z9" = none ∧
    read_dir stBoot "Z9" 0 = Except.ok [] := by
  decide

/-- C9 (amended): the provider's `read_dir` never produces an errno at
all — every request gets a successful listing — and a resolved id with
no children binding (unknown ids included) gets the successful empty
listing; no ENOENT or ENOTDIR is generated. -/
theorem c9_read_dir_empty_not_errno (st : ProviderState)
    (file_id : DriveId) (offset : Nat) :
    (∃ l, read_dir st file_id offset = Except.ok l) ∧
    (aget st.children (get_correct_id st file_id) = none →
      read_dir st file_id offset = Except.ok []) := by
  unfold read_dir
  dsimp only
  constructor
  · split
    · exact ⟨_, rfl⟩
    · exact ⟨_, rfl⟩
  · intro h
    split
    next cs heq =>
      rw [h] at heq
      exact absurd heq (by simp)
    next heq =>
      rfl

/-- Witness for the amended C9. -/
theorem c9_witness :
    (∃ l, read_dir stBoot "Z9" 0 = Except.ok l) ∧
    read_dir stBoot "Z9" 0 = Except.ok [] :=
  ⟨(c9_read_dir_empty_not_errno stBoot "Z9" 0).1,
   (c9_read_dir_empty_not_errno stBoot "Z9" 0).2 (by decide)⟩

/-- C10: `is_local` is monotone — once true it is never reset by any
provider transition — and along every reachable state at most one
download task has ever been spawned per id (the ghost `downloads` log
counts the `tokio::spawn` calls of `start_download_call`), download
failures included, since `wait_for_running_drive_request_if_exists`
discards the task result and `is_local` stays true. -/
theorem c10_is_local_monotone_download_once (st st2 : ProviderState)
    (id : DriveId) :
    (Step st st2 → is_local_of st id = true →
      is_local_of st2 id = true) ∧
    (Reach st → countOcc st.downloads id ≤ 1) :=
  ⟨fun hs hl => is_local_mono_of_step st st2 hs id hl,
   fun hr => (Inv_of_Reach st hr).downloads_ok id⟩

/-- Witness for C10: after opening `F1` (which spawns its download and
sets `is_local`), a further read step keeps `is_local` true, and the
download log of the reached state holds at most one entry for `F1`. -/
theorem c10_witness :
    is_local_of (read_content stOpened reqReadF1).1 "F1" = true ∧
    countOcc stOpened.downloads "F1" ≤ 1 :=
  ⟨(c10_is_local_monotone_download_once stOpened
      (read_content stOpened reqReadF1).1 "F1").1
      (Step.read_content stOpened reqReadF1) (by decide),
   (c10_is_local_monotone_download_once stOpened stOpened "F1").2
      reach_stOpened⟩

end DriveSyncer
